import Mathlib

/-!
A shallow embedding of the USDA Foundation Foods bulk importer
(`importer.importData` and its duplicate `importFoundationFoods`).

Go structs become Lean structures (Go `int` is `Int`, `string` is `String`,
`float64` is `Rat` — the importer only passes these values through, it never
computes with them, so exact rationals are a faithful carrier).  The five
destination tables become lists of row records; an `InsertOracle` models the
external failure of an individual `tx.Exec` call (the database may reject any
statement for reasons outside the program); primary-key conflicts are modelled
separately, by lookup in the current table, because `ON CONFLICT ... DO
NOTHING` turns them into error-free no-ops.  The two error log lines of the
loop become `LogEvent`s; the periodic progress log carries no data and is not
modelled.  The file read plus `json.Unmarshal` step is abstracted as an
`Except String Root` input, matching the two early-return branches of the Go
function.
-/

namespace USDA

/-- Mirrors Go struct `Nutrient` (part_002, lines 658-664). -/
structure Nutrient where
  id : Int
  number : String
  name : String
  rank : Int
  unitName : String
deriving DecidableEq, Repr

/-- Mirrors Go struct `Source` (part_002, lines 672-676). -/
structure Source where
  id : Int
  code : String
  description : String
deriving DecidableEq, Repr

/-- Mirrors Go struct `Derivation` (part_002, lines 666-670); the nested
source pointer is optional. -/
structure Derivation where
  code : String
  description : String
  foodNutrientSource : Option Source
deriving DecidableEq, Repr

/-- Mirrors Go struct `FoodNutrient` (part_002, lines 646-656); the
`FoodNutrientDerivation` pointer may be nil. -/
structure FoodNutrient where
  type : String
  id : Int
  nutrient : Nutrient
  amount : Rat
  dataPoints : Int
  min : Rat
  max : Rat
  median : Rat
  foodNutrientDerivation : Option Derivation
deriving DecidableEq, Repr

/-- Mirrors Go struct `FoodPortion` (part_002, lines 678-688). -/
structure FoodPortion where
  id : Int
  seqNum : Int
  amount : Rat
  unitName : String
  grams : Rat
  dataPoints : Int
  derivationId : String
  portionName : String
  portionDesc : String
deriving DecidableEq, Repr

/-- Mirrors Go struct `FoodAttribute` (part_002, lines 690-697). -/
structure FoodAttribute where
  seqNum : Int
  name : String
  value : String
  unit : String
  dataType : String
  derivationId : String
deriving DecidableEq, Repr

/-- Mirrors Go struct `InputFood` (part_002, lines 699-704). -/
structure InputFood where
  srcName : String
  srcId : Int
  srcTable : String
  srcDate : String
deriving DecidableEq, Repr

/-- Mirrors Go struct `FoundationFood` (part_002, lines 633-644).  Slices
absent from the JSON decode to nil, i.e. to the empty list here. -/
structure FoundationFood where
  fdcId : Int
  description : String
  dataType : String
  foodClass : String
  publicationDate : String
  foodNutrients : List FoodNutrient
  allNutrientNames : List String
  inputFoods : List InputFood
  foodPortions : List FoodPortion
  foodAttributes : List FoodAttribute
deriving DecidableEq, Repr

/-- Mirrors the anonymous root struct of `importData` (part_002, lines
897-899): the single relevant key `FoundationFoods`.  When the key is absent
Go leaves the slice nil, which is the empty list here. -/
structure Root where
  FoundationFoods : List FoundationFood
deriving DecidableEq, Repr

/-- A row of the `foods` table (columns from the CREATE TABLE at part_002,
lines 813-819). -/
structure FoodRow where
  fdc_id : Int
  description : String
  data_type : String
  food_class : String
  publication_date : String
deriving DecidableEq, Repr

/-- A row of the `input_foods` table (part_002, lines 821-828); the SERIAL
surrogate id is the list position and is not carried. -/
structure InputFoodRow where
  fdc_id : Int
  src_name : String
  src_id : Int
  src_table : String
  src_date : String
deriving DecidableEq, Repr

/-- A row of the `food_portions` table (part_002, lines 830-841). -/
structure FoodPortionRow where
  id : Int
  fdc_id : Int
  seq_num : Int
  amount : Rat
  unit_name : String
  grams : Rat
  data_points : Int
  derivation_id : String
  portion_name : String
  portion_desc : String
deriving DecidableEq, Repr

/-- A row of the `food_attributes` table (part_002, lines 843-852); the
SERIAL surrogate id is the list position and is not carried. -/
structure FoodAttributeRow where
  fdc_id : Int
  seq_num : Int
  name : String
  value : String
  unit : String
  data_type : String
  derivation_id : String
deriving DecidableEq, Repr

/-- A row of the `food_nutrients` table (part_002, lines 854-868). -/
structure FoodNutrientRow where
  id : Int
  fdc_id : Int
  nutrient_id : Int
  nutrient_name : String
  nutrient_number : String
  unit_name : String
  amount : Rat
  data_points : Int
  min_val : Rat
  max_val : Rat
  median : Rat
  derivation_code : String
  derivation_desc : String
deriving DecidableEq, Repr

/-- The five destination tables, each a list of rows in insertion order. -/
structure DBState where
  foods : List FoodRow
  input_foods : List InputFoodRow
  food_portions : List FoodPortionRow
  food_attributes : List FoodAttributeRow
  food_nutrients : List FoodNutrientRow
deriving DecidableEq, Repr

/-- The state of the five tables right after `createTables` ran: all tables
exist and are empty (part_002, lines 796-886 drop and recreate them). -/
def emptyDB : DBState := ⟨[], [], [], [], []⟩

/-- The effect of `createTables` on the data: whatever was in the
five tables before, afterwards they exist and are empty (the DROP/CREATE
pairs at part_002, lines 806-868). -/
def createTables (_db : DBState) : DBState := emptyDB

/-- The four running counters of `importData` (part_002, line 918). -/
structure Totals where
  totalFoods : Nat
  totalNutrients : Nat
  totalPortions : Nat
  totalAttrs : Nat
deriving DecidableEq, Repr

/-- The two per-row error log lines of the import loop (part_002, lines 928
and 950).  The nutrient-error branch (lines 983-984) emits nothing. -/
inductive LogEvent where
  | foodInsertError (fdcId : Int)
  | portionInsertError (id : Int) (fdcId : Int)
deriving DecidableEq, Repr

/-- Models the environment: whether a given `tx.Exec` INSERT fails for an
external reason (each predicate receives the values the statement binds).
Primary-key conflicts are NOT failures — `ON CONFLICT DO NOTHING` makes them
error-free no-ops — and are handled separately by lookup in the table. -/
structure InsertOracle where
  foodErr : FoundationFood → Bool
  inputErr : Int → InputFood → Bool
  portionErr : Int → FoodPortion → Bool
  attrErr : Int → FoodAttribute → Bool
  nutrientErr : Int → FoodNutrient → Bool

/-- The environment in which no insert ever fails externally. -/
def okOracle : InsertOracle :=
  ⟨fun _ => false, fun _ _ => false, fun _ _ => false, fun _ _ => false,
    fun _ _ => false⟩

/-- Loop state threaded through the record loop of `importData`: the tables,
the four counters, and the log lines emitted so far. -/
structure LoopState where
  db : DBState
  totals : Totals
  logs : List LogEvent
deriving DecidableEq, Repr

/-- Whether `foods` already holds a row with this primary key (the situation
in which `ON CONFLICT (fdc_id) DO NOTHING` fires). -/
def hasFoodKey (db : DBState) (k : Int) : Bool :=
  db.foods.any (fun r => r.fdc_id == k)

/-- Whether `food_portions` already holds a row with this primary key. -/
def hasPortionKey (db : DBState) (k : Int) : Bool :=
  db.food_portions.any (fun r => r.id == k)

/-- Whether `food_nutrients` already holds a row with this primary key. -/
def hasNutrientKey (db : DBState) (k : Int) : Bool :=
  db.food_nutrients.any (fun r => r.id == k)

/-- The `foods` row the INSERT at part_002, lines 922-926 binds. -/
def mkFoodRow (f : FoundationFood) : FoodRow :=
  ⟨f.fdcId, f.description, f.dataType, f.foodClass, f.publicationDate⟩

/-- The `input_foods` row the INSERT at part_002, lines 934-937 binds. -/
def mkInputFoodRow (fdcId : Int) (input : InputFood) : InputFoodRow :=
  ⟨fdcId, input.srcName, input.srcId, input.srcTable, input.srcDate⟩

/-- The `food_portions` row the INSERT at part_002, lines 942-948 binds. -/
def mkFoodPortionRow (fdcId : Int) (portion : FoodPortion) : FoodPortionRow :=
  ⟨portion.id, fdcId, portion.seqNum, portion.amount, portion.unitName,
    portion.grams, portion.dataPoints, portion.derivationId,
    portion.portionName, portion.portionDesc⟩

/-- The `food_attributes` row the INSERT at part_002, lines 958-961 binds. -/
def mkFoodAttributeRow (fdcId : Int) (attr : FoodAttribute) : FoodAttributeRow :=
  ⟨fdcId, attr.seqNum, attr.name, attr.value, attr.unit, attr.dataType,
    attr.derivationId⟩

/-- The `food_nutrients` row the INSERT at part_002, lines 973-982 binds,
with the derivation extraction of lines 967-971: both derivation columns are
the empty string when the nested derivation object is absent. -/
def mkFoodNutrientRow (fdcId : Int) (nutrient : FoodNutrient) : FoodNutrientRow :=
  let derivationCode :=
    match nutrient.foodNutrientDerivation with
    | some d => d.code
    | none => ""
  let derivationDesc :=
    match nutrient.foodNutrientDerivation with
    | some d => d.description
    | none => ""
  ⟨nutrient.id, fdcId, nutrient.nutrient.id, nutrient.nutrient.name,
    nutrient.nutrient.number, nutrient.nutrient.unitName, nutrient.amount,
    nutrient.dataPoints, nutrient.min, nutrient.max, nutrient.median,
    derivationCode, derivationDesc⟩

/-- One iteration of the InputFoods loop (part_002, lines 933-938): `_, _ =`
discards the error, so a failed statement silently inserts nothing and a
successful one appends its row; nothing is counted or logged. -/
def inputStep (o : InsertOracle) (fdcId : Int) (db : DBState)
    (input : InputFood) : DBState :=
  if o.inputErr fdcId input then db
  else { db with input_foods := db.input_foods ++ [mkInputFoodRow fdcId input] }

/-- The InputFoods loop (part_002, lines 933-938). -/
def insertInputFoods (o : InsertOracle) (fdcId : Int) :
    List InputFood → DBState → DBState
  | [], db => db
  | input :: rest, db =>
      insertInputFoods o fdcId rest (inputStep o fdcId db input)

/-- One iteration of the FoodPortions loop (part_002, lines 941-954): an
external error is logged and nothing else happens; otherwise the statement
succeeds — inserting the row unless the primary key conflicts — and
`totalPortions` is incremented. -/
def portionStep (o : InsertOracle) (fdcId : Int) (s : LoopState)
    (portion : FoodPortion) : LoopState :=
  if o.portionErr fdcId portion then
    { s with logs := s.logs ++ [.portionInsertError portion.id fdcId] }
  else if hasPortionKey s.db portion.id then
    { s with totals := { s.totals with totalPortions := s.totals.totalPortions + 1 } }
  else
    { s with
      db := { s.db with
        food_portions := s.db.food_portions ++ [mkFoodPortionRow fdcId portion] }
      totals := { s.totals with totalPortions := s.totals.totalPortions + 1 } }

/-- The FoodPortions loop (part_002, lines 941-954). -/
def insertPortions (o : InsertOracle) (fdcId : Int) :
    List FoodPortion → LoopState → LoopState
  | [], s => s
  | portion :: rest, s =>
      insertPortions o fdcId rest (portionStep o fdcId s portion)

/-- One iteration of the FoodAttributes loop (part_002, lines 957-963): the
error is discarded, and `totalAttrs++` runs unconditionally — a failed
insert still counts. -/
def attrStep (o : InsertOracle) (fdcId : Int) (s : LoopState)
    (attr : FoodAttribute) : LoopState :=
  let db1 :=
    if o.attrErr fdcId attr then s.db
    else { s.db with
      food_attributes := s.db.food_attributes ++ [mkFoodAttributeRow fdcId attr] }
  { s with db := db1
           totals := { s.totals with totalAttrs := s.totals.totalAttrs + 1 } }

/-- The FoodAttributes loop (part_002, lines 957-963). -/
def insertAttributes (o : InsertOracle) (fdcId : Int) :
    List FoodAttribute → LoopState → LoopState
  | [], s => s
  | attr :: rest, s =>
      insertAttributes o fdcId rest (attrStep o fdcId s attr)

/-- One iteration of the FoodNutrients loop (part_002, lines 966-988): an
external error is silently ignored — the `if err != nil` branch is empty, no
log — and only the success branch counts; a primary-key conflict is an
error-free no-op that still counts. -/
def nutrientStep (o : InsertOracle) (fdcId : Int) (s : LoopState)
    (nutrient : FoodNutrient) : LoopState :=
  if o.nutrientErr fdcId nutrient then s
  else if hasNutrientKey s.db nutrient.id then
    { s with totals := { s.totals with totalNutrients := s.totals.totalNutrients + 1 } }
  else
    { s with
      db := { s.db with
        food_nutrients := s.db.food_nutrients ++ [mkFoodNutrientRow fdcId nutrient] }
      totals := { s.totals with totalNutrients := s.totals.totalNutrients + 1 } }

/-- The FoodNutrients loop (part_002, lines 966-988). -/
def insertNutrients (o : InsertOracle) (fdcId : Int) :
    List FoodNutrient → LoopState → LoopState
  | [], s => s
  | nutrient :: rest, s =>
      insertNutrients o fdcId rest (nutrientStep o fdcId s nutrient)

/-- The part of the record-loop body after a non-erroring `foods` INSERT
(part_002, lines 932-990), starting from the tables `db0` left by that
INSERT: input foods, portions, attributes, nutrients in that order, then
`totalFoods++`. -/
def processChildren (o : InsertOracle) (food : FoundationFood)
    (db0 : DBState) (s : LoopState) : LoopState :=
  let db1 := insertInputFoods o food.fdcId food.inputFoods db0
  let s2 := insertPortions o food.fdcId food.foodPortions { s with db := db1 }
  let s3 := insertAttributes o food.fdcId food.foodAttributes s2
  let s4 := insertNutrients o food.fdcId food.foodNutrients s3
  { s4 with totals := { s4.totals with totalFoods := s4.totals.totalFoods + 1 } }

/-- The body of the record loop of `importData` (part_002, lines 920-994):
insert the food — on error log and `continue`, skipping the whole subtree —
then input foods, portions, attributes, nutrients in that order, then
`totalFoods++`.  A `foods` primary-key conflict is an error-free no-op, so
the children are still processed and the record still counts. -/
def processFood (o : InsertOracle) (s : LoopState)
    (food : FoundationFood) : LoopState :=
  if o.foodErr food then
    { s with logs := s.logs ++ [.foodInsertError food.fdcId] }
  else
    processChildren o food
      (if hasFoodKey s.db food.fdcId then s.db
        else { s.db with foods := s.db.foods ++ [mkFoodRow food] }) s

/-- The record loop of `importData` (part_002, lines 920-994). -/
def importList (o : InsertOracle) :
    List FoundationFood → LoopState → LoopState
  | [], s => s
  | food :: rest, s => importList o rest (processFood o s food)

/-- The data a successful `importData` leaves behind: the committed tables,
the four counters it reports, and the error log lines it emitted. -/
structure ImportOk where
  db : DBState
  totals : Totals
  logs : List LogEvent
deriving DecidableEq, Repr

/-- Mirrors `importData` (part_002, lines 889-1007).  The file read and JSON parse
are abstracted as the `src` argument: their failure (`.error`) is returned
before the transaction is begun, leaving the tables untouched; on `.ok` the
record loop runs over the parsed list starting from zeroed counters and the
transaction commits. -/
def importData (o : InsertOracle) (src : Except String Root)
    (db : DBState) : Except String ImportOk :=
  match src with
  | .error e => .error e
  | .ok root =>
      let s := importList o root.FoundationFoods ⟨db, ⟨0, 0, 0, 0⟩, []⟩
      .ok ⟨s.db, s.totals, s.logs⟩

/-- The DDL-then-DML shape of `Run` (part_002, lines 749-775): tables are
dropped and recreated first, outside the load transaction, then `importData`
runs.  On a source-read/parse failure the result pairs the post-DDL (empty)
tables with the error; on success it carries the committed tables. -/
def runImport (o : InsertOracle) (src : Except String Root)
    (db : DBState) : DBState × Except String (Totals × List LogEvent) :=
  let db1 := createTables db
  match importData o src db1 with
  | .error e => (db1, .error e)
  | .ok out => (out.db, .ok (out.totals, out.logs))

/-- The primary keys currently in `foods`. -/
def foodIds (db : DBState) : List Int := db.foods.map (fun r => r.fdc_id)

/-- The primary keys currently in `food_portions`. -/
def portionIds (db : DBState) : List Int := db.food_portions.map (fun r => r.id)

/-- The primary keys currently in `food_nutrients`. -/
def nutrientIds (db : DBState) : List Int := db.food_nutrients.map (fun r => r.id)

/-- Referential integrity of a database state: every row of the four child
tables has a corresponding `foods` row with the same `fdc_id`. -/
def fdcInvariant (db : DBState) : Prop :=
  (∀ r ∈ db.input_foods, ∃ fr ∈ db.foods, fr.fdc_id = r.fdc_id) ∧
  (∀ r ∈ db.food_portions, ∃ fr ∈ db.foods, fr.fdc_id = r.fdc_id) ∧
  (∀ r ∈ db.food_attributes, ∃ fr ∈ db.foods, fr.fdc_id = r.fdc_id) ∧
  (∀ r ∈ db.food_nutrients, ∃ fr ∈ db.foods, fr.fdc_id = r.fdc_id)

/-- Total number of InputFood entries across a list of records. -/
def sumInputs (foodsL : List FoundationFood) : Nat :=
  (foodsL.map (fun f => f.inputFoods.length)).sum

/-- Total number of FoodAttribute entries across a list of records. -/
def sumAttrs (foodsL : List FoundationFood) : Nat :=
  (foodsL.map (fun f => f.foodAttributes.length)).sum

/-- Two database states that agree on every table except `input_foods`. -/
def agreeExceptInputs (d1 d2 : DBState) : Prop :=
  d1.foods = d2.foods ∧ d1.food_portions = d2.food_portions ∧
  d1.food_attributes = d2.food_attributes ∧ d1.food_nutrients = d2.food_nutrients

/-- Two loop states that agree on everything except the `input_foods`
table: same counters, same logs, same other four tables. -/
def simExceptInputs (s1 s2 : LoopState) : Prop :=
  agreeExceptInputs s1.db s2.db ∧ s1.totals = s2.totals ∧ s1.logs = s2.logs

/-- The same environment, except that every `input_foods` INSERT fails. -/
def disableInputs (o : InsertOracle) : InsertOracle :=
  { o with inputErr := fun _ _ => true }

/-- Go `encoding/json` semantics for decoding a `FoodNutrient` object: a
field absent from the JSON leaves the struct field at its zero value, so the
optional numerics `amount`, `dataPoints`, `min`, `max`, `median` decode to 0
when omitted and the derivation pointer to nil. -/
def decodeFoodNutrient (ty : String) (idn : Int) (nut : Nutrient)
    (amount : Option Rat) (dataPoints : Option Int)
    (mi ma me : Option Rat) (deriv : Option Derivation) : FoodNutrient :=
  ⟨ty, idn, nut, amount.getD 0, dataPoints.getD 0, mi.getD 0, ma.getD 0,
    me.getD 0, deriv⟩

/-- The environment in which every single INSERT fails externally. -/
def failOracle : InsertOracle :=
  ⟨fun _ => true, fun _ _ => true, fun _ _ => true, fun _ _ => true,
    fun _ _ => true⟩

/-- The environment in which exactly the nutrient INSERTs fail. -/
def nutrientFailOracle : InsertOracle :=
  { okOracle with nutrientErr := fun _ _ => true }

/-- The Energy nutrient entry of the concrete spec scenario: id 100,
nutrient 1008 "Energy" (number "208", unit kcal), amount 52, no derivation,
other numerics omitted (zero). -/
def appleNutrient : FoodNutrient :=
  ⟨"", 100, ⟨1008, "208", "Energy", 0, "kcal"⟩, 52, 0, 0, 0, 0, none⟩

/-- The concrete spec scenario record: fdcId 1, "Apple", one nutrient, empty
portions and attributes, no input foods. -/
def appleFood : FoundationFood :=
  ⟨1, "Apple", "Foundation", "FinalFood", "2020-01-01", [appleNutrient],
    [], [], [], []⟩

/-- The concrete spec scenario document. -/
def appleRoot : Root := ⟨[appleFood]⟩

/-- A second record with the same fdcId 1 as `appleFood` but a different
nutrient measurement (id 101). -/
def appleDupFood : FoundationFood :=
  ⟨1, "Apple again", "Foundation", "FinalFood", "2020-01-02",
    [⟨"", 101, ⟨1003, "203", "Protein", 0, "g"⟩, 3, 0, 0, 0, 0, none⟩],
    [], [], [], []⟩

/-- A document in which a later record repeats an earlier record's fdcId. -/
def appleDupRoot : Root := ⟨[appleFood, appleDupFood]⟩

/-- A record with zero portions, zero attributes and zero nutrients but one
InputFood provenance entry. -/
def inputOnlyFood : FoundationFood :=
  ⟨2, "Pear", "Foundation", "FinalFood", "2020-01-01", [], [],
    [⟨"Pear, raw", 7, "source_tbl", "2019"⟩], [], []⟩

/-- The InputFood provenance entry of `fullFood`. -/
def fullInput : InputFood := ⟨"Banana, raw", 9, "source_tbl", "2019"⟩

/-- The FoodPortion entry of `fullFood`. -/
def fullPortion : FoodPortion :=
  ⟨77, 1, 1, "piece", 118, 0, "", "1 medium", "one medium banana"⟩

/-- The FoodAttribute entry of `fullFood`. -/
def fullAttr : FoodAttribute := ⟨1, "Comment", "ripe", "", "Attribute", ""⟩

/-- The FoodNutrient entry of `fullFood`, with a derivation object. -/
def fullNutrient : FoodNutrient :=
  ⟨"", 200, ⟨1008, "208", "Energy", 0, "kcal"⟩, 89, 0, 0, 0, 0,
    some ⟨"A", "Analytical", none⟩⟩

/-- A record exercising all four child tables: one input food, one portion,
one attribute, one nutrient. -/
def fullFood : FoundationFood :=
  ⟨3, "Banana", "Foundation", "FinalFood", "2020-02-02", [fullNutrient], [],
    [fullInput], [fullPortion], [fullAttr]⟩

/-- A document exercising all four child tables. -/
def fullRoot : Root := ⟨[fullFood]⟩

/-- A record with no children at all. -/
def bareFood : FoundationFood :=
  ⟨4, "Salt", "Foundation", "FinalFood", "2020-03-03", [], [], [], [], []⟩

/-- The loop state at the start of a run over empty tables. -/
def initState : LoopState := ⟨emptyDB, ⟨0, 0, 0, 0⟩, []⟩

/-- The loop state of a run that has just finished processing `appleFood`. -/
def dupState : LoopState :=
  ⟨⟨[⟨1, "Apple", "Foundation", "FinalFood", "2020-01-01"⟩], [], [], [],
    [⟨100, 1, 1008, "Energy", "208", "kcal", 52, 0, 0, 0, 0, "", ""⟩]⟩,
    ⟨1, 1, 0, 0⟩, []⟩

/-- An environment that fails exactly the INSERTs for foods with fdcId 1,
portion rows with id 77, nutrient rows with id 200, and every input-food and
attribute row. -/
def mixedOracle : InsertOracle where
  foodErr f := decide (f.fdcId = 1)
  inputErr := fun _ _ => true
  portionErr := fun _ p => decide (p.id = 77)
  attrErr := fun _ _ => true
  nutrientErr := fun _ n => decide (n.id = 200)

/-- The tables, totals and logs left by importing `fullRoot` into empty
tables with no insert failures. -/
def fullOut1 : ImportOk :=
  ⟨⟨[⟨3, "Banana", "Foundation", "FinalFood", "2020-02-02"⟩],
    [⟨3, "Banana, raw", 9, "source_tbl", "2019"⟩],
    [⟨77, 3, 1, 1, "piece", 118, 0, "", "1 medium", "one medium banana"⟩],
    [⟨3, 1, "Comment", "ripe", "", "Attribute", ""⟩],
    [⟨200, 3, 1008, "Energy", "208", "kcal", 89, 0, 0, 0, 0, "A",
      "Analytical"⟩]⟩, ⟨1, 1, 1, 1⟩, []⟩

/-- The state after re-running the `fullRoot` load over `fullOut1.db`:
keyed tables unchanged, input foods and attributes doubled. -/
def fullOut2 : ImportOk :=
  ⟨⟨[⟨3, "Banana", "Foundation", "FinalFood", "2020-02-02"⟩],
    [⟨3, "Banana, raw", 9, "source_tbl", "2019"⟩,
      ⟨3, "Banana, raw", 9, "source_tbl", "2019"⟩],
    [⟨77, 3, 1, 1, "piece", 118, 0, "", "1 medium", "one medium banana"⟩],
    [⟨3, 1, "Comment", "ripe", "", "Attribute", ""⟩,
      ⟨3, 1, "Comment", "ripe", "", "Attribute", ""⟩],
    [⟨200, 3, 1008, "Energy", "208", "kcal", 89, 0, 0, 0, 0, "A",
      "Analytical"⟩]⟩, ⟨1, 1, 1, 1⟩, []⟩

theorem hasFoodKey_iff (db : DBState) (k : Int) :
    hasFoodKey db k = true ↔ k ∈ foodIds db := by
  simp [hasFoodKey, foodIds, List.any_eq_true]

theorem hasPortionKey_iff (db : DBState) (k : Int) :
    hasPortionKey db k = true ↔ k ∈ portionIds db := by
  simp [hasPortionKey, portionIds, List.any_eq_true]

theorem hasNutrientKey_iff (db : DBState) (k : Int) :
    hasNutrientKey db k = true ↔ k ∈ nutrientIds db := by
  simp [hasNutrientKey, nutrientIds, List.any_eq_true]

theorem insertInputFoods_foods (o : InsertOracle) (k : Int) :
    ∀ (xs : List InputFood) (db : DBState),
      (insertInputFoods o k xs db).foods = db.foods := by
  intro xs
  induction xs with
  | nil => intro db; simp [insertInputFoods]
  | cons input rest ih =>
      intro db
      rw [insertInputFoods, ih]
      by_cases h : o.inputErr k input <;> simp [inputStep, h]

theorem insertInputFoods_portions (o : InsertOracle) (k : Int) :
    ∀ (xs : List InputFood) (db : DBState),
      (insertInputFoods o k xs db).food_portions = db.food_portions := by
  intro xs
  induction xs with
  | nil => intro db; simp [insertInputFoods]
  | cons input rest ih =>
      intro db
      rw [insertInputFoods, ih]
      by_cases h : o.inputErr k input <;> simp [inputStep, h]

theorem insertInputFoods_attrs (o : InsertOracle) (k : Int) :
    ∀ (xs : List InputFood) (db : DBState),
      (insertInputFoods o k xs db).food_attributes = db.food_attributes := by
  intro xs
  induction xs with
  | nil => intro db; simp [insertInputFoods]
  | cons input rest ih =>
      intro db
      rw [insertInputFoods, ih]
      by_cases h : o.inputErr k input <;> simp [inputStep, h]

theorem insertInputFoods_nutrients (o : InsertOracle) (k : Int) :
    ∀ (xs : List InputFood) (db : DBState),
      (insertInputFoods o k xs db).food_nutrients = db.food_nutrients := by
  intro xs
  induction xs with
  | nil => intro db; simp [insertInputFoods]
  | cons input rest ih =>
      intro db
      rw [insertInputFoods, ih]
      by_cases h : o.inputErr k input <;> simp [inputStep, h]

theorem insertInputFoods_inputs (o : InsertOracle) (k : Int) :
    ∀ (xs : List InputFood) (db : DBState), ∃ t,
      (insertInputFoods o k xs db).input_foods = db.input_foods ++ t ∧
      ∀ r ∈ t, r.fdc_id = k := by
  intro xs
  induction xs with
  | nil => intro db; exact ⟨[], by simp [insertInputFoods], by simp⟩
  | cons input rest ih =>
      intro db
      by_cases h : o.inputErr k input
      · obtain ⟨t, ht, hall⟩ := ih (inputStep o k db input)
        refine ⟨t, ?_, hall⟩
        rw [insertInputFoods] at *
        simpa [inputStep, h] using ht
      · obtain ⟨t, ht, hall⟩ := ih (inputStep o k db input)
        refine ⟨mkInputFoodRow k input :: t, ?_, ?_⟩
        · rw [insertInputFoods]
          rw [ht]
          simp [inputStep, h]
        · intro r hr
          rcases List.mem_cons.mp hr with h1 | h2
          · subst h1; rfl
          · exact hall r h2

theorem insertInputFoods_ok_inputs (k : Int) :
    ∀ (xs : List InputFood) (db : DBState),
      (insertInputFoods okOracle k xs db).input_foods =
        db.input_foods ++ xs.map (mkInputFoodRow k) := by
  intro xs
  induction xs with
  | nil => intro db; simp [insertInputFoods]
  | cons input rest ih =>
      intro db
      rw [insertInputFoods, ih]
      simp [inputStep, okOracle]

theorem portionStep_others (o : InsertOracle) (k : Int) (s : LoopState)
    (p : FoodPortion) :
    (portionStep o k s p).db.foods = s.db.foods ∧
    (portionStep o k s p).db.input_foods = s.db.input_foods ∧
    (portionStep o k s p).db.food_attributes = s.db.food_attributes ∧
    (portionStep o k s p).db.food_nutrients = s.db.food_nutrients ∧
    (portionStep o k s p).totals.totalFoods = s.totals.totalFoods ∧
    (portionStep o k s p).totals.totalNutrients = s.totals.totalNutrients ∧
    (portionStep o k s p).totals.totalAttrs = s.totals.totalAttrs := by
  by_cases he : o.portionErr k p <;> by_cases hc : hasPortionKey s.db p.id <;>
    simp [portionStep, he, hc]

theorem insertPortions_others (o : InsertOracle) (k : Int) :
    ∀ (xs : List FoodPortion) (s : LoopState),
      (insertPortions o k xs s).db.foods = s.db.foods ∧
      (insertPortions o k xs s).db.input_foods = s.db.input_foods ∧
      (insertPortions o k xs s).db.food_attributes = s.db.food_attributes ∧
      (insertPortions o k xs s).db.food_nutrients = s.db.food_nutrients ∧
      (insertPortions o k xs s).totals.totalFoods = s.totals.totalFoods ∧
      (insertPortions o k xs s).totals.totalNutrients = s.totals.totalNutrients ∧
      (insertPortions o k xs s).totals.totalAttrs = s.totals.totalAttrs := by
  intro xs
  induction xs with
  | nil => intro s; simp [insertPortions]
  | cons p rest ih =>
      intro s
      obtain ⟨g1, g2, g3, g4, g5, g6, g7⟩ := ih (portionStep o k s p)
      obtain ⟨f1, f2, f3, f4, f5, f6, f7⟩ := portionStep_others o k s p
      rw [insertPortions]
      exact ⟨g1.trans f1, g2.trans f2, g3.trans f3, g4.trans f4, g5.trans f5,
        g6.trans f6, g7.trans f7⟩

theorem insertPortions_portions (o : InsertOracle) (k : Int) :
    ∀ (xs : List FoodPortion) (s : LoopState), ∃ t,
      (insertPortions o k xs s).db.food_portions = s.db.food_portions ++ t ∧
      ∀ r ∈ t, r.fdc_id = k := by
  intro xs
  induction xs with
  | nil => intro s; exact ⟨[], by simp [insertPortions], by simp⟩
  | cons p rest ih =>
      intro s
      obtain ⟨t, ht, hall⟩ := ih (portionStep o k s p)
      rw [insertPortions]
      by_cases he : o.portionErr k p
      · exact ⟨t, by rw [ht]; simp [portionStep, he], hall⟩
      · by_cases hc : hasPortionKey s.db p.id
        · exact ⟨t, by rw [ht]; simp [portionStep, he, hc], hall⟩
        · refine ⟨mkFoodPortionRow k p :: t, ?_, ?_⟩
          · rw [ht]; simp [portionStep, he, hc]
          · intro r hr
            rcases List.mem_cons.mp hr with h1 | h2
            · subst h1; rfl
            · exact hall r h2

theorem insertPortions_mem (k : Int) :
    ∀ (xs : List FoodPortion) (s : LoopState), ∀ p ∈ xs,
      p.id ∈ portionIds (insertPortions okOracle k xs s).db := by
  intro xs
  induction xs with
  | nil => intro s p hp; simp at hp
  | cons q rest ih =>
      intro s p hp
      rw [insertPortions]
      rcases List.mem_cons.mp hp with h1 | h2
      · subst h1
        obtain ⟨t, ht, -⟩ := insertPortions_portions okOracle k rest
          (portionStep okOracle k s p)
        have hmem : p.id ∈ portionIds (portionStep okOracle k s p).db := by
          by_cases hc : hasPortionKey s.db p.id
          · have := (hasPortionKey_iff s.db p.id).mp hc
            simpa [portionStep, okOracle, hc, portionIds] using
              ((hasPortionKey_iff s.db p.id).mp hc)
          · simp [portionStep, okOracle, hc, portionIds, mkFoodPortionRow]
        rw [portionIds] at hmem ⊢
        rw [ht, List.map_append]
        exact List.mem_append_left _ hmem
      · exact ih (portionStep okOracle k s q) p h2

theorem insertPortions_frozen (k : Int) :
    ∀ (xs : List FoodPortion) (s : LoopState),
      (∀ p ∈ xs, p.id ∈ portionIds s.db) →
      (insertPortions okOracle k xs s).db = s.db ∧
      (insertPortions okOracle k xs s).logs = s.logs ∧
      (insertPortions okOracle k xs s).totals.totalPortions =
        s.totals.totalPortions + xs.length := by
  intro xs
  induction xs with
  | nil => intro s _; simp [insertPortions]
  | cons q rest ih =>
      intro s h
      have hc : hasPortionKey s.db q.id = true :=
        (hasPortionKey_iff s.db q.id).mpr (h q (List.mem_cons_self q rest))
      have hstep : portionStep okOracle k s q =
          { s with totals :=
            { s.totals with totalPortions := s.totals.totalPortions + 1 } } := by
        simp [portionStep, okOracle, hc]
      rw [insertPortions, hstep]
      obtain ⟨hdb, hlogs, hcount⟩ := ih
        { s with totals :=
          { s.totals with totalPortions := s.totals.totalPortions + 1 } }
        (fun p hp => h p (List.mem_cons_of_mem q hp))
      refine ⟨hdb, hlogs, ?_⟩
      rw [hcount]
      simp [List.length_cons]
      omega

theorem attrStep_others (o : InsertOracle) (k : Int) (s : LoopState)
    (a : FoodAttribute) :
    (attrStep o k s a).db.foods = s.db.foods ∧
    (attrStep o k s a).db.input_foods = s.db.input_foods ∧
    (attrStep o k s a).db.food_portions = s.db.food_portions ∧
    (attrStep o k s a).db.food_nutrients = s.db.food_nutrients ∧
    (attrStep o k s a).totals.totalFoods = s.totals.totalFoods ∧
    (attrStep o k s a).totals.totalNutrients = s.totals.totalNutrients ∧
    (attrStep o k s a).totals.totalPortions = s.totals.totalPortions ∧
    (attrStep o k s a).logs = s.logs := by
  by_cases he : o.attrErr k a <;> simp [attrStep, he]

theorem insertAttributes_others (o : InsertOracle) (k : Int) :
    ∀ (xs : List FoodAttribute) (s : LoopState),
      (insertAttributes o k xs s).db.foods = s.db.foods ∧
      (insertAttributes o k xs s).db.input_foods = s.db.input_foods ∧
      (insertAttributes o k xs s).db.food_portions = s.db.food_portions ∧
      (insertAttributes o k xs s).db.food_nutrients = s.db.food_nutrients ∧
      (insertAttributes o k xs s).totals.totalFoods = s.totals.totalFoods ∧
      (insertAttributes o k xs s).totals.totalNutrients = s.totals.totalNutrients ∧
      (insertAttributes o k xs s).totals.totalPortions = s.totals.totalPortions ∧
      (insertAttributes o k xs s).logs = s.logs := by
  intro xs
  induction xs with
  | nil => intro s; simp [insertAttributes]
  | cons a rest ih =>
      intro s
      obtain ⟨g1, g2, g3, g4, g5, g6, g7, g8⟩ := ih (attrStep o k s a)
      obtain ⟨f1, f2, f3, f4, f5, f6, f7, f8⟩ := attrStep_others o k s a
      rw [insertAttributes]
      exact ⟨g1.trans f1, g2.trans f2, g3.trans f3, g4.trans f4, g5.trans f5,
        g6.trans f6, g7.trans f7, g8.trans f8⟩

theorem insertAttributes_attrs (o : InsertOracle) (k : Int) :
    ∀ (xs : List FoodAttribute) (s : LoopState), ∃ t,
      (insertAttributes o k xs s).db.food_attributes =
        s.db.food_attributes ++ t ∧
      ∀ r ∈ t, r.fdc_id = k := by
  intro xs
  induction xs with
  | nil => intro s; exact ⟨[], by simp [insertAttributes], by simp⟩
  | cons a rest ih =>
      intro s
      obtain ⟨t, ht, hall⟩ := ih (attrStep o k s a)
      rw [insertAttributes]
      by_cases he : o.attrErr k a
      · exact ⟨t, by rw [ht]; simp [attrStep, he], hall⟩
      · refine ⟨mkFoodAttributeRow k a :: t, ?_, ?_⟩
        · rw [ht]; simp [attrStep, he]
        · intro r hr
          rcases List.mem_cons.mp hr with h1 | h2
          · subst h1; rfl
          · exact hall r h2

theorem insertAttributes_totalAttrs (o : InsertOracle) (k : Int) :
    ∀ (xs : List FoodAttribute) (s : LoopState),
      (insertAttributes o k xs s).totals.totalAttrs =
        s.totals.totalAttrs + xs.length := by
  intro xs
  induction xs with
  | nil => intro s; simp [insertAttributes]
  | cons a rest ih =>
      intro s
      rw [insertAttributes, ih]
      have hstep : (attrStep o k s a).totals.totalAttrs =
          s.totals.totalAttrs + 1 := by
        by_cases he : o.attrErr k a <;> simp [attrStep, he]
      rw [hstep]
      simp [List.length_cons]
      omega

theorem insertAttributes_ok_attrs (k : Int) :
    ∀ (xs : List FoodAttribute) (s : LoopState),
      (insertAttributes okOracle k xs s).db.food_attributes =
        s.db.food_attributes ++ xs.map (mkFoodAttributeRow k) := by
  intro xs
  induction xs with
  | nil => intro s; simp [insertAttributes]
  | cons a rest ih =>
      intro s
      rw [insertAttributes, ih]
      simp [attrStep, okOracle]

theorem nutrientStep_others (o : InsertOracle) (k : Int) (s : LoopState)
    (n : FoodNutrient) :
    (nutrientStep o k s n).db.foods = s.db.foods ∧
    (nutrientStep o k s n).db.input_foods = s.db.input_foods ∧
    (nutrientStep o k s n).db.food_portions = s.db.food_portions ∧
    (nutrientStep o k s n).db.food_attributes = s.db.food_attributes ∧
    (nutrientStep o k s n).totals.totalFoods = s.totals.totalFoods ∧
    (nutrientStep o k s n).totals.totalPortions = s.totals.totalPortions ∧
    (nutrientStep o k s n).totals.totalAttrs = s.totals.totalAttrs ∧
    (nutrientStep o k s n).logs = s.logs := by
  by_cases he : o.nutrientErr k n <;> by_cases hc : hasNutrientKey s.db n.id <;>
    simp [nutrientStep, he, hc]

theorem insertNutrients_others (o : InsertOracle) (k : Int) :
    ∀ (xs : List FoodNutrient) (s : LoopState),
      (insertNutrients o k xs s).db.foods = s.db.foods ∧
      (insertNutrients o k xs s).db.input_foods = s.db.input_foods ∧
      (insertNutrients o k xs s).db.food_portions = s.db.food_portions ∧
      (insertNutrients o k xs s).db.food_attributes = s.db.food_attributes ∧
      (insertNutrients o k xs s).totals.totalFoods = s.totals.totalFoods ∧
      (insertNutrients o k xs s).totals.totalPortions = s.totals.totalPortions ∧
      (insertNutrients o k xs s).totals.totalAttrs = s.totals.totalAttrs ∧
      (insertNutrients o k xs s).logs = s.logs := by
  intro xs
  induction xs with
  | nil => intro s; simp [insertNutrients]
  | cons n rest ih =>
      intro s
      obtain ⟨g1, g2, g3, g4, g5, g6, g7, g8⟩ := ih (nutrientStep o k s n)
      obtain ⟨f1, f2, f3, f4, f5, f6, f7, f8⟩ := nutrientStep_others o k s n
      rw [insertNutrients]
      exact ⟨g1.trans f1, g2.trans f2, g3.trans f3, g4.trans f4, g5.trans f5,
        g6.trans f6, g7.trans f7, g8.trans f8⟩

theorem insertNutrients_nutrients (o : InsertOracle) (k : Int) :
    ∀ (xs : List FoodNutrient) (s : LoopState), ∃ t,
      (insertNutrients o k xs s).db.food_nutrients =
        s.db.food_nutrients ++ t ∧
      ∀ r ∈ t, r.fdc_id = k := by
  intro xs
  induction xs with
  | nil => intro s; exact ⟨[], by simp [insertNutrients], by simp⟩
  | cons n rest ih =>
      intro s
      obtain ⟨t, ht, hall⟩ := ih (nutrientStep o k s n)
      rw [insertNutrients]
      by_cases he : o.nutrientErr k n
      · exact ⟨t, by rw [ht]; simp [nutrientStep, he], hall⟩
      · by_cases hc : hasNutrientKey s.db n.id
        · exact ⟨t, by rw [ht]; simp [nutrientStep, he, hc], hall⟩
        · refine ⟨mkFoodNutrientRow k n :: t, ?_, ?_⟩
          · rw [ht]; simp [nutrientStep, he, hc]
          · intro r hr
            rcases List.mem_cons.mp hr with h1 | h2
            · subst h1; rfl
            · exact hall r h2

theorem insertNutrients_mem (k : Int) :
    ∀ (xs : List FoodNutrient) (s : LoopState), ∀ n ∈ xs,
      n.id ∈ nutrientIds (insertNutrients okOracle k xs s).db := by
  intro xs
  induction xs with
  | nil => intro s n hn; simp at hn
  | cons q rest ih =>
      intro s n hn
      rw [insertNutrients]
      rcases List.mem_cons.mp hn with h1 | h2
      · subst h1
        obtain ⟨t, ht, -⟩ := insertNutrients_nutrients okOracle k rest
          (nutrientStep okOracle k s n)
        have hmem : n.id ∈ nutrientIds (nutrientStep okOracle k s n).db := by
          by_cases hc : hasNutrientKey s.db n.id
          · simpa [nutrientStep, okOracle, hc, nutrientIds] using
              ((hasNutrientKey_iff s.db n.id).mp hc)
          · simp [nutrientStep, okOracle, hc, nutrientIds, mkFoodNutrientRow]
        rw [nutrientIds] at hmem ⊢
        rw [ht, List.map_append]
        exact List.mem_append_left _ hmem
      · exact ih (nutrientStep okOracle k s q) n h2

theorem insertNutrients_frozen (k : Int) :
    ∀ (xs : List FoodNutrient) (s : LoopState),
      (∀ n ∈ xs, n.id ∈ nutrientIds s.db) →
      (insertNutrients okOracle k xs s).db = s.db ∧
      (insertNutrients okOracle k xs s).logs = s.logs ∧
      (insertNutrients okOracle k xs s).totals.totalNutrients =
        s.totals.totalNutrients + xs.length := by
  intro xs
  induction xs with
  | nil => intro s _; simp [insertNutrients]
  | cons q rest ih =>
      intro s h
      have hc : hasNutrientKey s.db q.id = true :=
        (hasNutrientKey_iff s.db q.id).mpr (h q (List.mem_cons_self q rest))
      have hstep : nutrientStep okOracle k s q =
          { s with totals :=
            { s.totals with totalNutrients := s.totals.totalNutrients + 1 } } := by
        simp [nutrientStep, okOracle, hc]
      rw [insertNutrients, hstep]
      obtain ⟨hdb, hlogs, hcount⟩ := ih
        { s with totals :=
          { s.totals with totalNutrients := s.totals.totalNutrients + 1 } }
        (fun n hn => h n (List.mem_cons_of_mem q hn))
      refine ⟨hdb, hlogs, ?_⟩
      rw [hcount]
      simp [List.length_cons]
      omega

theorem processChildren_components (o : InsertOracle) (f : FoundationFood)
    (db0 : DBState) (s : LoopState) :
    ∃ ti tp ta tn,
      (processChildren o f db0 s).db.foods = db0.foods ∧
      (processChildren o f db0 s).db.input_foods = db0.input_foods ++ ti ∧
      (∀ r ∈ ti, r.fdc_id = f.fdcId) ∧
      (processChildren o f db0 s).db.food_portions = db0.food_portions ++ tp ∧
      (∀ r ∈ tp, r.fdc_id = f.fdcId) ∧
      (processChildren o f db0 s).db.food_attributes =
        db0.food_attributes ++ ta ∧
      (∀ r ∈ ta, r.fdc_id = f.fdcId) ∧
      (processChildren o f db0 s).db.food_nutrients =
        db0.food_nutrients ++ tn ∧
      (∀ r ∈ tn, r.fdc_id = f.fdcId) ∧
      (processChildren o f db0 s).totals.totalFoods =
        s.totals.totalFoods + 1 := by
  obtain ⟨ti, hti, htiall⟩ :=
    insertInputFoods_inputs o f.fdcId f.inputFoods db0
  obtain ⟨p1, p2, p3, p4, p5, p6, p7⟩ := insertPortions_others o f.fdcId
    f.foodPortions { s with db := insertInputFoods o f.fdcId f.inputFoods db0 }
  obtain ⟨tp, htp, htpall⟩ := insertPortions_portions o f.fdcId
    f.foodPortions { s with db := insertInputFoods o f.fdcId f.inputFoods db0 }
  set s2 := insertPortions o f.fdcId f.foodPortions
    { s with db := insertInputFoods o f.fdcId f.inputFoods db0 } with hs2
  obtain ⟨a1, a2, a3, a4, a5, a6, a7, a8⟩ :=
    insertAttributes_others o f.fdcId f.foodAttributes s2
  obtain ⟨ta, hta, htaall⟩ :=
    insertAttributes_attrs o f.fdcId f.foodAttributes s2
  set s3 := insertAttributes o f.fdcId f.foodAttributes s2 with hs3
  obtain ⟨n1, n2, n3, n4, n5, n6, n7, n8⟩ :=
    insertNutrients_others o f.fdcId f.foodNutrients s3
  obtain ⟨tn, htn, htnall⟩ :=
    insertNutrients_nutrients o f.fdcId f.foodNutrients s3
  refine ⟨ti, tp, ta, tn, ?_, ?_, htiall, ?_, htpall, ?_, htaall, ?_, htnall, ?_⟩
  · show (insertNutrients o f.fdcId f.foodNutrients s3).db.foods = db0.foods
    rw [n1, hs3, a1, hs2, p1]
    exact insertInputFoods_foods o f.fdcId f.inputFoods db0
  · show (insertNutrients o f.fdcId f.foodNutrients s3).db.input_foods =
      db0.input_foods ++ ti
    rw [n2, hs3, a2, hs2, p2]
    exact hti
  · show (insertNutrients o f.fdcId f.foodNutrients s3).db.food_portions =
      db0.food_portions ++ tp
    rw [n3, hs3, a3, htp]
    simp [insertInputFoods_portions o f.fdcId f.inputFoods db0]
  · show (insertNutrients o f.fdcId f.foodNutrients s3).db.food_attributes =
      db0.food_attributes ++ ta
    rw [n4, hs3, hta, hs2, p3]
    simp [insertInputFoods_attrs o f.fdcId f.inputFoods db0]
  · show (insertNutrients o f.fdcId f.foodNutrients s3).db.food_nutrients =
      db0.food_nutrients ++ tn
    rw [htn, hs3, a4, hs2, p4]
    simp [insertInputFoods_nutrients o f.fdcId f.inputFoods db0]
  · show (insertNutrients o f.fdcId f.foodNutrients s3).totals.totalFoods + 1 =
      s.totals.totalFoods + 1
    rw [n5, hs3, a5, hs2, p5]

theorem processChildren_ok_applen (f : FoundationFood) (db0 : DBState)
    (s : LoopState) :
    (processChildren okOracle f db0 s).db.input_foods =
      db0.input_foods ++ f.inputFoods.map (mkInputFoodRow f.fdcId) ∧
    (processChildren okOracle f db0 s).db.food_attributes =
      db0.food_attributes ++ f.foodAttributes.map (mkFoodAttributeRow f.fdcId) := by
  obtain ⟨p1, p2, p3, p4, p5, p6, p7⟩ := insertPortions_others okOracle f.fdcId
    f.foodPortions
    { s with db := insertInputFoods okOracle f.fdcId f.inputFoods db0 }
  set s2 := insertPortions okOracle f.fdcId f.foodPortions
    { s with db := insertInputFoods okOracle f.fdcId f.inputFoods db0 } with hs2
  obtain ⟨a1, a2, a3, a4, a5, a6, a7, a8⟩ :=
    insertAttributes_others okOracle f.fdcId f.foodAttributes s2
  set s3 := insertAttributes okOracle f.fdcId f.foodAttributes s2 with hs3
  obtain ⟨n1, n2, n3, n4, n5, n6, n7, n8⟩ :=
    insertNutrients_others okOracle f.fdcId f.foodNutrients s3
  constructor
  · show (insertNutrients okOracle f.fdcId f.foodNutrients s3).db.input_foods = _
    rw [n2, hs3, a2, hs2, p2]
    exact insertInputFoods_ok_inputs f.fdcId f.inputFoods db0
  · show (insertNutrients okOracle f.fdcId f.foodNutrients s3).db.food_attributes = _
    rw [n4, hs3, insertAttributes_ok_attrs f.fdcId f.foodAttributes s2, hs2, p3]
    simp [insertInputFoods_attrs okOracle f.fdcId f.inputFoods db0]

theorem processChildren_mem (f : FoundationFood) (db0 : DBState)
    (s : LoopState) :
    (∀ p ∈ f.foodPortions,
      p.id ∈ portionIds (processChildren okOracle f db0 s).db) ∧
    (∀ n ∈ f.foodNutrients,
      n.id ∈ nutrientIds (processChildren okOracle f db0 s).db) := by
  set s2 := insertPortions okOracle f.fdcId f.foodPortions
    { s with db := insertInputFoods okOracle f.fdcId f.inputFoods db0 } with hs2
  obtain ⟨a1, a2, a3, a4, a5, a6, a7, a8⟩ :=
    insertAttributes_others okOracle f.fdcId f.foodAttributes s2
  set s3 := insertAttributes okOracle f.fdcId f.foodAttributes s2 with hs3
  obtain ⟨n1, n2, n3, n4, n5, n6, n7, n8⟩ :=
    insertNutrients_others okOracle f.fdcId f.foodNutrients s3
  constructor
  · intro p hp
    have hmem := insertPortions_mem f.fdcId f.foodPortions
      { s with db := insertInputFoods okOracle f.fdcId f.inputFoods db0 } p hp
    show p.id ∈ portionIds (insertNutrients okOracle f.fdcId f.foodNutrients s3).db
    rw [portionIds, n3, hs3, a3]
    exact hmem
  · intro n hn
    have hmem := insertNutrients_mem f.fdcId f.foodNutrients s3 n hn
    exact hmem

theorem processChildren_frozen (f : FoundationFood) (db0 : DBState)
    (s : LoopState)
    (hp : ∀ p ∈ f.foodPortions, p.id ∈ portionIds db0)
    (hn : ∀ n ∈ f.foodNutrients, n.id ∈ nutrientIds db0) :
    (processChildren okOracle f db0 s).db.foods = db0.foods ∧
    (processChildren okOracle f db0 s).db.food_portions = db0.food_portions ∧
    (processChildren okOracle f db0 s).db.food_nutrients = db0.food_nutrients := by
  have hdb1p : (insertInputFoods okOracle f.fdcId f.inputFoods db0).food_portions =
      db0.food_portions := insertInputFoods_portions okOracle f.fdcId f.inputFoods db0
  have hdb1n : (insertInputFoods okOracle f.fdcId f.inputFoods db0).food_nutrients =
      db0.food_nutrients := insertInputFoods_nutrients okOracle f.fdcId f.inputFoods db0
  have hdb1f : (insertInputFoods okOracle f.fdcId f.inputFoods db0).foods =
      db0.foods := insertInputFoods_foods okOracle f.fdcId f.inputFoods db0
  have hfrozen2 := insertPortions_frozen f.fdcId f.foodPortions
    { s with db := insertInputFoods okOracle f.fdcId f.inputFoods db0 }
    (by intro p hpm; rw [portionIds]; show p.id ∈ _
        rw [show ({ s with db := insertInputFoods okOracle f.fdcId f.inputFoods db0 } :
          LoopState).db.food_portions = db0.food_portions from hdb1p]
        exact hp p hpm)
  set s2 := insertPortions okOracle f.fdcId f.foodPortions
    { s with db := insertInputFoods okOracle f.fdcId f.inputFoods db0 } with hs2
  obtain ⟨a1, a2, a3, a4, a5, a6, a7, a8⟩ :=
    insertAttributes_others okOracle f.fdcId f.foodAttributes s2
  set s3 := insertAttributes okOracle f.fdcId f.foodAttributes s2 with hs3
  have hs2db : s2.db = insertInputFoods okOracle f.fdcId f.inputFoods db0 :=
    hfrozen2.1
  have hfrozen4 := insertNutrients_frozen f.fdcId f.foodNutrients s3
    (by intro n hnm; rw [nutrientIds, a4, hs2db, hdb1n]; exact hn n hnm)
  constructor
  · show (insertNutrients okOracle f.fdcId f.foodNutrients s3).db.foods = db0.foods
    rw [hfrozen4.1, hs3, a1, hs2db, hdb1f]
  constructor
  · show (insertNutrients okOracle f.fdcId f.foodNutrients s3).db.food_portions =
      db0.food_portions
    rw [hfrozen4.1, hs3, a3, hs2db, hdb1p]
  · show (insertNutrients okOracle f.fdcId f.foodNutrients s3).db.food_nutrients =
      db0.food_nutrients
    rw [hfrozen4.1, hs3, a4, hs2db, hdb1n]

theorem hasFoodKey_congr (d1 d2 : DBState) (k : Int) (h : d1.foods = d2.foods) :
    hasFoodKey d1 k = hasFoodKey d2 k := by
  simp [hasFoodKey, h]

theorem processFood_err (o : InsertOracle) (s : LoopState) (f : FoundationFood)
    (he : o.foodErr f = true) :
    processFood o s f = { s with logs := s.logs ++ [.foodInsertError f.fdcId] } := by
  simp [processFood, he]

theorem processFood_ok (o : InsertOracle) (s : LoopState) (f : FoundationFood)
    (he : o.foodErr f = false) :
    processFood o s f = processChildren o f
      (if hasFoodKey s.db f.fdcId then s.db
        else { s.db with foods := s.db.foods ++ [mkFoodRow f] }) s := by
  rw [processFood, if_neg (by simp [he])]

theorem processFood_invariant (o : InsertOracle) (s : LoopState)
    (f : FoundationFood) (h : fdcInvariant s.db) :
    fdcInvariant (processFood o s f).db := by
  by_cases he : o.foodErr f
  · simpa [processFood, he] using h
  · rw [processFood, if_neg (by simp [he])]
    set db0 := if hasFoodKey s.db f.fdcId then s.db
      else { s.db with foods := s.db.foods ++ [mkFoodRow f] } with hdb0
    have hkey : hasFoodKey db0 f.fdcId = true := by
      rw [hdb0]
      by_cases hk : hasFoodKey s.db f.fdcId
      · simp [hk]
      · rw [if_neg hk]
        simp [hasFoodKey, mkFoodRow]
    have hinv0 : fdcInvariant db0 := by
      rw [hdb0]
      by_cases hk : hasFoodKey s.db f.fdcId
      · simpa [hk] using h
      · simp only [hk, Bool.false_eq_true, if_false]
        obtain ⟨h1, h2, h3, h4⟩ := h
        refine ⟨?_, ?_, ?_, ?_⟩ <;> intro r hr
        · obtain ⟨fr, hfr, heq⟩ := h1 r hr
          exact ⟨fr, List.mem_append_left _ hfr, heq⟩
        · obtain ⟨fr, hfr, heq⟩ := h2 r hr
          exact ⟨fr, List.mem_append_left _ hfr, heq⟩
        · obtain ⟨fr, hfr, heq⟩ := h3 r hr
          exact ⟨fr, List.mem_append_left _ hfr, heq⟩
        · obtain ⟨fr, hfr, heq⟩ := h4 r hr
          exact ⟨fr, List.mem_append_left _ hfr, heq⟩
    obtain ⟨ti, tp, ta, tn, e1, e2, e3, e4, e5, e6, e7, e8, e9, e10⟩ :=
      processChildren_components o f db0 s
    have hex : ∃ fr ∈ db0.foods, fr.fdc_id = f.fdcId := by
      simpa [hasFoodKey, List.any_eq_true] using hkey
    obtain ⟨g1, g2, g3, g4⟩ := hinv0
    refine ⟨?_, ?_, ?_, ?_⟩ <;> intro r hr
    · rw [e2] at hr
      rcases List.mem_append.mp hr with hcase | hcase
      · obtain ⟨fr, hfr, heq⟩ := g1 r hcase
        exact ⟨fr, by rw [e1]; exact hfr, heq⟩
      · obtain ⟨fr, hfr, heq⟩ := hex
        exact ⟨fr, by rw [e1]; exact hfr, heq.trans (e3 r hcase).symm⟩
    · rw [e4] at hr
      rcases List.mem_append.mp hr with hcase | hcase
      · obtain ⟨fr, hfr, heq⟩ := g2 r hcase
        exact ⟨fr, by rw [e1]; exact hfr, heq⟩
      · obtain ⟨fr, hfr, heq⟩ := hex
        exact ⟨fr, by rw [e1]; exact hfr, heq.trans (e5 r hcase).symm⟩
    · rw [e6] at hr
      rcases List.mem_append.mp hr with hcase | hcase
      · obtain ⟨fr, hfr, heq⟩ := g3 r hcase
        exact ⟨fr, by rw [e1]; exact hfr, heq⟩
      · obtain ⟨fr, hfr, heq⟩ := hex
        exact ⟨fr, by rw [e1]; exact hfr, heq.trans (e7 r hcase).symm⟩
    · rw [e8] at hr
      rcases List.mem_append.mp hr with hcase | hcase
      · obtain ⟨fr, hfr, heq⟩ := g4 r hcase
        exact ⟨fr, by rw [e1]; exact hfr, heq⟩
      · obtain ⟨fr, hfr, heq⟩ := hex
        exact ⟨fr, by rw [e1]; exact hfr, heq.trans (e9 r hcase).symm⟩

theorem importList_invariant (o : InsertOracle) :
    ∀ (foodsL : List FoundationFood) (s : LoopState),
      fdcInvariant s.db → fdcInvariant (importList o foodsL s).db := by
  intro foodsL
  induction foodsL with
  | nil => intro s h; simpa [importList] using h
  | cons g rest ih =>
      intro s h
      rw [importList]
      exact ih (processFood o s g) (processFood_invariant o s g h)

theorem processFood_mono (o : InsertOracle) (s : LoopState) (f : FoundationFood) :
    (∃ t, (processFood o s f).db.foods = s.db.foods ++ t) ∧
    (∃ t, (processFood o s f).db.food_portions = s.db.food_portions ++ t) ∧
    (∃ t, (processFood o s f).db.food_nutrients = s.db.food_nutrients ++ t) := by
  by_cases he : o.foodErr f
  · rw [processFood_err o s f he]
    exact ⟨⟨[], by simp⟩, ⟨[], by simp⟩, ⟨[], by simp⟩⟩
  · rw [processFood, if_neg (by simp [he])]
    set db0 := if hasFoodKey s.db f.fdcId then s.db
      else { s.db with foods := s.db.foods ++ [mkFoodRow f] } with hdb0
    obtain ⟨ti, tp, ta, tn, e1, e2, e3, e4, e5, e6, e7, e8, e9, e10⟩ :=
      processChildren_components o f db0 s
    have h0f : ∃ t, db0.foods = s.db.foods ++ t := by
      rw [hdb0]
      by_cases hk : hasFoodKey s.db f.fdcId
      · exact ⟨[], by simp [hk]⟩
      · exact ⟨[mkFoodRow f], by simp [hk]⟩
    have h0p : db0.food_portions = s.db.food_portions := by
      rw [hdb0]; by_cases hk : hasFoodKey s.db f.fdcId <;> simp [hk]
    have h0n : db0.food_nutrients = s.db.food_nutrients := by
      rw [hdb0]; by_cases hk : hasFoodKey s.db f.fdcId <;> simp [hk]
    obtain ⟨t0, ht0⟩ := h0f
    exact ⟨⟨t0, by rw [e1, ht0]⟩, ⟨tp, by rw [e4, h0p]⟩, ⟨tn, by rw [e8, h0n]⟩⟩

theorem importList_mono (o : InsertOracle) :
    ∀ (foodsL : List FoundationFood) (s : LoopState),
      (∃ t, (importList o foodsL s).db.foods = s.db.foods ++ t) ∧
      (∃ t, (importList o foodsL s).db.food_portions =
        s.db.food_portions ++ t) ∧
      (∃ t, (importList o foodsL s).db.food_nutrients =
        s.db.food_nutrients ++ t) := by
  intro foodsL
  induction foodsL with
  | nil =>
      intro s
      exact ⟨⟨[], by simp [importList]⟩, ⟨[], by simp [importList]⟩,
        ⟨[], by simp [importList]⟩⟩
  | cons g rest ih =>
      intro s
      rw [importList]
      obtain ⟨⟨t1, h1⟩, ⟨t2, h2⟩, ⟨t3, h3⟩⟩ := ih (processFood o s g)
      obtain ⟨⟨u1, k1⟩, ⟨u2, k2⟩, ⟨u3, k3⟩⟩ := processFood_mono o s g
      exact ⟨⟨u1 ++ t1, by rw [h1, k1, List.append_assoc]⟩,
        ⟨u2 ++ t2, by rw [h2, k2, List.append_assoc]⟩,
        ⟨u3 ++ t3, by rw [h3, k3, List.append_assoc]⟩⟩

theorem processFood_mem (s : LoopState) (f : FoundationFood) :
    hasFoodKey (processFood okOracle s f).db f.fdcId = true ∧
    (∀ p ∈ f.foodPortions,
      p.id ∈ portionIds (processFood okOracle s f).db) ∧
    (∀ n ∈ f.foodNutrients,
      n.id ∈ nutrientIds (processFood okOracle s f).db) := by
  rw [processFood, if_neg (by simp [okOracle])]
  set db0 := if hasFoodKey s.db f.fdcId then s.db
    else { s.db with foods := s.db.foods ++ [mkFoodRow f] } with hdb0
  have hkey : hasFoodKey db0 f.fdcId = true := by
    rw [hdb0]
    by_cases hk : hasFoodKey s.db f.fdcId
    · simp [hk]
    · rw [if_neg hk]
      simp [hasFoodKey, mkFoodRow]
  obtain ⟨ti, tp, ta, tn, e1, e2, e3, e4, e5, e6, e7, e8, e9, e10⟩ :=
    processChildren_components okOracle f db0 s
  obtain ⟨hpm, hnm⟩ := processChildren_mem f db0 s
  exact ⟨(hasFoodKey_congr _ db0 f.fdcId e1).trans hkey, hpm, hnm⟩

theorem portionIds_congr (d1 d2 : DBState)
    (h : d1.food_portions = d2.food_portions) : portionIds d1 = portionIds d2 := by
  simp [portionIds, h]

theorem nutrientIds_congr (d1 d2 : DBState)
    (h : d1.food_nutrients = d2.food_nutrients) :
    nutrientIds d1 = nutrientIds d2 := by
  simp [nutrientIds, h]

theorem hasFoodKey_of_append (d1 d2 : DBState) (k : Int) (t : List FoodRow)
    (h : d2.foods = d1.foods ++ t) (hm : hasFoodKey d1 k = true) :
    hasFoodKey d2 k = true := by
  rw [hasFoodKey, h, List.any_append]
  rw [hasFoodKey] at hm
  simp [hm]

theorem mem_portionIds_of_append (d1 d2 : DBState) (k : Int)
    (t : List FoodPortionRow) (h : d2.food_portions = d1.food_portions ++ t)
    (hm : k ∈ portionIds d1) : k ∈ portionIds d2 := by
  rw [portionIds, h, List.map_append]
  exact List.mem_append_left _ hm

theorem mem_nutrientIds_of_append (d1 d2 : DBState) (k : Int)
    (t : List FoodNutrientRow) (h : d2.food_nutrients = d1.food_nutrients ++ t)
    (hm : k ∈ nutrientIds d1) : k ∈ nutrientIds d2 := by
  rw [nutrientIds, h, List.map_append]
  exact List.mem_append_left _ hm

theorem processFood_applen (s : LoopState) (f : FoundationFood) :
    (processFood okOracle s f).db.input_foods.length =
      s.db.input_foods.length + f.inputFoods.length ∧
    (processFood okOracle s f).db.food_attributes.length =
      s.db.food_attributes.length + f.foodAttributes.length := by
  rw [processFood, if_neg (by simp [okOracle])]
  set db0 := if hasFoodKey s.db f.fdcId then s.db
    else { s.db with foods := s.db.foods ++ [mkFoodRow f] } with hdb0
  have h0i : db0.input_foods = s.db.input_foods := by
    rw [hdb0]; by_cases hk : hasFoodKey s.db f.fdcId <;> simp [hk]
  have h0a : db0.food_attributes = s.db.food_attributes := by
    rw [hdb0]; by_cases hk : hasFoodKey s.db f.fdcId <;> simp [hk]
  obtain ⟨hi, ha⟩ := processChildren_ok_applen f db0 s
  constructor
  · rw [hi, h0i]; simp
  · rw [ha, h0a]; simp

theorem processFood_frozen (s : LoopState) (f : FoundationFood)
    (hk : hasFoodKey s.db f.fdcId = true)
    (hp : ∀ p ∈ f.foodPortions, p.id ∈ portionIds s.db)
    (hn : ∀ n ∈ f.foodNutrients, n.id ∈ nutrientIds s.db) :
    (processFood okOracle s f).db.foods = s.db.foods ∧
    (processFood okOracle s f).db.food_portions = s.db.food_portions ∧
    (processFood okOracle s f).db.food_nutrients = s.db.food_nutrients := by
  rw [processFood, if_neg (by simp [okOracle]), if_pos hk]
  exact processChildren_frozen f s.db s hp hn

theorem importList_mem :
    ∀ (foodsL : List FoundationFood) (s : LoopState), ∀ f ∈ foodsL,
      hasFoodKey (importList okOracle foodsL s).db f.fdcId = true ∧
      (∀ p ∈ f.foodPortions,
        p.id ∈ portionIds (importList okOracle foodsL s).db) ∧
      (∀ n ∈ f.foodNutrients,
        n.id ∈ nutrientIds (importList okOracle foodsL s).db) := by
  intro foodsL
  induction foodsL with
  | nil => intro s f hf; simp at hf
  | cons g rest ih =>
      intro s f hf
      rw [importList]
      rcases List.mem_cons.mp hf with h1 | h2
      · subst h1
        obtain ⟨hkey, hpm, hnm⟩ := processFood_mem s f
        obtain ⟨⟨t1, e1⟩, ⟨t2, e2⟩, ⟨t3, e3⟩⟩ :=
          importList_mono okOracle rest (processFood okOracle s f)
        exact ⟨hasFoodKey_of_append _ _ _ t1 e1 hkey,
          fun p hp => mem_portionIds_of_append _ _ _ t2 e2 (hpm p hp),
          fun n hn => mem_nutrientIds_of_append _ _ _ t3 e3 (hnm n hn)⟩
      · exact ih (processFood okOracle s g) f h2

theorem importList_applen :
    ∀ (foodsL : List FoundationFood) (s : LoopState),
      (importList okOracle foodsL s).db.input_foods.length =
        s.db.input_foods.length + sumInputs foodsL ∧
      (importList okOracle foodsL s).db.food_attributes.length =
        s.db.food_attributes.length + sumAttrs foodsL := by
  intro foodsL
  induction foodsL with
  | nil => intro s; simp [importList, sumInputs, sumAttrs]
  | cons g rest ih =>
      intro s
      rw [importList]
      obtain ⟨ih1, ih2⟩ := ih (processFood okOracle s g)
      obtain ⟨hp1, hp2⟩ := processFood_applen s g
      constructor
      · rw [ih1, hp1]
        simp [sumInputs]
        omega
      · rw [ih2, hp2]
        simp [sumAttrs]
        omega

theorem importList_frozen :
    ∀ (foodsL : List FoundationFood) (s : LoopState),
      (∀ f ∈ foodsL, hasFoodKey s.db f.fdcId = true) →
      (∀ f ∈ foodsL, ∀ p ∈ f.foodPortions, p.id ∈ portionIds s.db) →
      (∀ f ∈ foodsL, ∀ n ∈ f.foodNutrients, n.id ∈ nutrientIds s.db) →
      (importList okOracle foodsL s).db.foods = s.db.foods ∧
      (importList okOracle foodsL s).db.food_portions = s.db.food_portions ∧
      (importList okOracle foodsL s).db.food_nutrients = s.db.food_nutrients := by
  intro foodsL
  induction foodsL with
  | nil => intro s _ _ _; simp [importList]
  | cons g rest ih =>
      intro s hk hp hn
      rw [importList]
      obtain ⟨z1, z2, z3⟩ := processFood_frozen s g
        (hk g (List.mem_cons_self g rest))
        (hp g (List.mem_cons_self g rest))
        (hn g (List.mem_cons_self g rest))
      obtain ⟨w1, w2, w3⟩ := ih (processFood okOracle s g)
        (fun f hf => (hasFoodKey_congr _ s.db f.fdcId z1).trans
          (hk f (List.mem_cons_of_mem g hf)))
        (fun f hf p hpp => by
          rw [portionIds_congr _ s.db z2]
          exact hp f (List.mem_cons_of_mem g hf) p hpp)
        (fun f hf n hnn => by
          rw [nutrientIds_congr _ s.db z3]
          exact hn f (List.mem_cons_of_mem g hf) n hnn)
      exact ⟨w1.trans z1, w2.trans z2, w3.trans z3⟩

theorem insertInputFoods_sim (o1 o2 : InsertOracle) (k : Int)
    (xs : List InputFood) (d1 d2 : DBState) (h : agreeExceptInputs d1 d2) :
    agreeExceptInputs (insertInputFoods o1 k xs d1) (insertInputFoods o2 k xs d2) := by
  obtain ⟨h1, h2, h3, h4⟩ := h
  exact ⟨(insertInputFoods_foods o1 k xs d1).trans
      (h1.trans (insertInputFoods_foods o2 k xs d2).symm),
    (insertInputFoods_portions o1 k xs d1).trans
      (h2.trans (insertInputFoods_portions o2 k xs d2).symm),
    (insertInputFoods_attrs o1 k xs d1).trans
      (h3.trans (insertInputFoods_attrs o2 k xs d2).symm),
    (insertInputFoods_nutrients o1 k xs d1).trans
      (h4.trans (insertInputFoods_nutrients o2 k xs d2).symm)⟩

theorem portionStep_sim (o1 o2 : InsertOracle)
    (hpe : o1.portionErr = o2.portionErr) (k : Int) (p : FoodPortion)
    (s1 s2 : LoopState) (h : simExceptInputs s1 s2) :
    simExceptInputs (portionStep o1 k s1 p) (portionStep o2 k s2 p) := by
  obtain ⟨⟨h1, h2, h3, h4⟩, ht, hl⟩ := h
  have hc : hasPortionKey s2.db p.id = hasPortionKey s1.db p.id := by
    simp [hasPortionKey, h2]
  cases he : o1.portionErr k p with
  | true =>
      have he2 : o2.portionErr k p = true := by rw [← hpe]; exact he
      simp only [portionStep, he, he2, if_true]
      exact ⟨⟨h1, h2, h3, h4⟩, ht, by rw [hl]⟩
  | false =>
      have he2 : o2.portionErr k p = false := by rw [← hpe]; exact he
      cases hck : hasPortionKey s1.db p.id with
      | true =>
          have hck2 : hasPortionKey s2.db p.id = true := hc.trans hck
          simp only [portionStep, he, he2, hck, hck2, Bool.false_eq_true,
            if_false, if_true]
          exact ⟨⟨h1, h2, h3, h4⟩, by rw [ht], hl⟩
      | false =>
          have hck2 : hasPortionKey s2.db p.id = false := hc.trans hck
          simp only [portionStep, he, he2, hck, hck2, Bool.false_eq_true,
            if_false]
          exact ⟨⟨h1, by simp [h2], h3, h4⟩, by rw [ht], hl⟩

theorem insertPortions_sim (o1 o2 : InsertOracle)
    (hpe : o1.portionErr = o2.portionErr) (k : Int) :
    ∀ (xs : List FoodPortion) (s1 s2 : LoopState), simExceptInputs s1 s2 →
      simExceptInputs (insertPortions o1 k xs s1) (insertPortions o2 k xs s2) := by
  intro xs
  induction xs with
  | nil => intro s1 s2 h; simpa [insertPortions] using h
  | cons p rest ih =>
      intro s1 s2 h
      rw [insertPortions, insertPortions]
      exact ih _ _ (portionStep_sim o1 o2 hpe k p s1 s2 h)

theorem attrStep_sim (o1 o2 : InsertOracle) (hae : o1.attrErr = o2.attrErr)
    (k : Int) (a : FoodAttribute) (s1 s2 : LoopState)
    (h : simExceptInputs s1 s2) :
    simExceptInputs (attrStep o1 k s1 a) (attrStep o2 k s2 a) := by
  obtain ⟨⟨h1, h2, h3, h4⟩, ht, hl⟩ := h
  cases he : o1.attrErr k a with
  | true =>
      have he2 : o2.attrErr k a = true := by rw [← hae]; exact he
      simp only [attrStep, he, he2, if_true]
      exact ⟨⟨h1, h2, h3, h4⟩, by rw [ht], hl⟩
  | false =>
      have he2 : o2.attrErr k a = false := by rw [← hae]; exact he
      simp only [attrStep, he, he2, Bool.false_eq_true, if_false]
      exact ⟨⟨h1, h2, by simp [h3], h4⟩, by rw [ht], hl⟩

theorem insertAttributes_sim (o1 o2 : InsertOracle)
    (hae : o1.attrErr = o2.attrErr) (k : Int) :
    ∀ (xs : List FoodAttribute) (s1 s2 : LoopState), simExceptInputs s1 s2 →
      simExceptInputs (insertAttributes o1 k xs s1)
        (insertAttributes o2 k xs s2) := by
  intro xs
  induction xs with
  | nil => intro s1 s2 h; simpa [insertAttributes] using h
  | cons a rest ih =>
      intro s1 s2 h
      rw [insertAttributes, insertAttributes]
      exact ih _ _ (attrStep_sim o1 o2 hae k a s1 s2 h)

theorem nutrientStep_sim (o1 o2 : InsertOracle)
    (hne : o1.nutrientErr = o2.nutrientErr) (k : Int) (n : FoodNutrient)
    (s1 s2 : LoopState) (h : simExceptInputs s1 s2) :
    simExceptInputs (nutrientStep o1 k s1 n) (nutrientStep o2 k s2 n) := by
  obtain ⟨⟨h1, h2, h3, h4⟩, ht, hl⟩ := h
  have hc : hasNutrientKey s2.db n.id = hasNutrientKey s1.db n.id := by
    simp [hasNutrientKey, h4]
  cases he : o1.nutrientErr k n with
  | true =>
      have he2 : o2.nutrientErr k n = true := by rw [← hne]; exact he
      simp only [nutrientStep, he, he2, if_true]
      exact ⟨⟨h1, h2, h3, h4⟩, ht, hl⟩
  | false =>
      have he2 : o2.nutrientErr k n = false := by rw [← hne]; exact he
      cases hck : hasNutrientKey s1.db n.id with
      | true =>
          have hck2 : hasNutrientKey s2.db n.id = true := hc.trans hck
          simp only [nutrientStep, he, he2, hck, hck2, Bool.false_eq_true,
            if_false, if_true]
          exact ⟨⟨h1, h2, h3, h4⟩, by rw [ht], hl⟩
      | false =>
          have hck2 : hasNutrientKey s2.db n.id = false := hc.trans hck
          simp only [nutrientStep, he, he2, hck, hck2, Bool.false_eq_true,
            if_false]
          exact ⟨⟨h1, h2, h3, by simp [h4]⟩, by rw [ht], hl⟩

theorem insertNutrients_sim (o1 o2 : InsertOracle)
    (hne : o1.nutrientErr = o2.nutrientErr) (k : Int) :
    ∀ (xs : List FoodNutrient) (s1 s2 : LoopState), simExceptInputs s1 s2 →
      simExceptInputs (insertNutrients o1 k xs s1)
        (insertNutrients o2 k xs s2) := by
  intro xs
  induction xs with
  | nil => intro s1 s2 h; simpa [insertNutrients] using h
  | cons n rest ih =>
      intro s1 s2 h
      rw [insertNutrients, insertNutrients]
      exact ih _ _ (nutrientStep_sim o1 o2 hne k n s1 s2 h)

theorem processChildren_sim (o1 o2 : InsertOracle)
    (hpe : o1.portionErr = o2.portionErr) (hae : o1.attrErr = o2.attrErr)
    (hne : o1.nutrientErr = o2.nutrientErr) (f : FoundationFood)
    (db0a db0b : DBState) (hdb : agreeExceptInputs db0a db0b)
    (s1 s2 : LoopState) (h : simExceptInputs s1 s2) :
    simExceptInputs (processChildren o1 f db0a s1)
      (processChildren o2 f db0b s2) := by
  obtain ⟨-, ht, hl⟩ := h
  have hsim1 : simExceptInputs
      { s1 with db := insertInputFoods o1 f.fdcId f.inputFoods db0a }
      { s2 with db := insertInputFoods o2 f.fdcId f.inputFoods db0b } :=
    ⟨insertInputFoods_sim o1 o2 f.fdcId f.inputFoods db0a db0b hdb, ht, hl⟩
  have hsim2 := insertPortions_sim o1 o2 hpe f.fdcId f.foodPortions _ _ hsim1
  have hsim3 := insertAttributes_sim o1 o2 hae f.fdcId f.foodAttributes _ _ hsim2
  have hsim4 := insertNutrients_sim o1 o2 hne f.fdcId f.foodNutrients _ _ hsim3
  obtain ⟨ha4, ht4, hl4⟩ := hsim4
  exact ⟨ha4,
    congrArg (fun t : Totals => { t with totalFoods := t.totalFoods + 1 }) ht4,
    hl4⟩

theorem processFood_sim (o1 o2 : InsertOracle) (hfe : o1.foodErr = o2.foodErr)
    (hpe : o1.portionErr = o2.portionErr) (hae : o1.attrErr = o2.attrErr)
    (hne : o1.nutrientErr = o2.nutrientErr) (f : FoundationFood)
    (s1 s2 : LoopState) (h : simExceptInputs s1 s2) :
    simExceptInputs (processFood o1 s1 f) (processFood o2 s2 f) := by
  obtain ⟨⟨h1, h2, h3, h4⟩, ht, hl⟩ := h
  have hk : hasFoodKey s2.db f.fdcId = hasFoodKey s1.db f.fdcId := by
    simp [hasFoodKey, h1]
  cases he : o1.foodErr f with
  | true =>
      have he2 : o2.foodErr f = true := by rw [← hfe]; exact he
      rw [processFood_err o1 s1 f he, processFood_err o2 s2 f he2]
      exact ⟨⟨h1, h2, h3, h4⟩, ht, by rw [hl]⟩
  | false =>
      have he2 : o2.foodErr f = false := by rw [← hfe]; exact he
      rw [processFood_ok o1 s1 f he, processFood_ok o2 s2 f he2]
      refine processChildren_sim o1 o2 hpe hae hne f _ _ ?_ s1 s2
        ⟨⟨h1, h2, h3, h4⟩, ht, hl⟩
      by_cases hck : hasFoodKey s1.db f.fdcId = true
      · have hck2 : hasFoodKey s2.db f.fdcId = true := hk.trans hck
        rw [if_pos hck, if_pos hck2]
        exact ⟨h1, h2, h3, h4⟩
      · have hck2 : ¬hasFoodKey s2.db f.fdcId = true := by rw [hk]; exact hck
        rw [if_neg hck, if_neg hck2]
        exact ⟨by simp [h1], h2, h3, h4⟩

theorem importList_sim (o1 o2 : InsertOracle) (hfe : o1.foodErr = o2.foodErr)
    (hpe : o1.portionErr = o2.portionErr) (hae : o1.attrErr = o2.attrErr)
    (hne : o1.nutrientErr = o2.nutrientErr) :
    ∀ (foodsL : List FoundationFood) (s1 s2 : LoopState),
      simExceptInputs s1 s2 →
      simExceptInputs (importList o1 foodsL s1) (importList o2 foodsL s2) := by
  intro foodsL
  induction foodsL with
  | nil => intro s1 s2 h; simpa [importList] using h
  | cons g rest ih =>
      intro s1 s2 h
      rw [importList, importList]
      exact ih _ _ (processFood_sim o1 o2 hfe hpe hae hne g s1 s2 h)

/-- C3: if the source file cannot be read or parsed as JSON, `importData`
returns the error before the load transaction is begun, so the run fails
fatally and the five tables stay in their post-DDL empty state: `runImport`
pairs the error with exactly `emptyDB`. -/
theorem c3_parse_failure_no_rows (o : InsertOracle) (e : String)
    (db db' : DBState) :
    runImport o (.error e) db = (emptyDB, .error e) ∧
    importData o (.error e) db' = .error e :=
  ⟨rfl, rfl⟩

/-- C10: a document whose `FoundationFoods` key is absent or empty (Go
decodes both to the empty slice, the empty list here) is not an error: the
tables are still dropped and recreated, the load runs over zero records,
all four totals are reported as zero, no log line is emitted, and the run
succeeds with all five tables existing and empty. -/
theorem c10_empty_document (o : InsertOracle) (db : DBState) :
    runImport o (.ok ⟨[]⟩) db = (emptyDB, .ok (⟨0, 0, 0, 0⟩, [])) :=
  rfl

/-- C5: a nutrient whose nested derivation object is absent is persisted
with `derivation_code = ""` and `derivation_desc = ""` (present empty
strings, not an absent marker — the row fields are total); when the
derivation object is present its code and description are persisted. -/
theorem c5_derivation_defaults (o : InsertOracle) (k : Int) (s : LoopState)
    (n : FoodNutrient) (herr : o.nutrientErr k n = false)
    (hconf : hasNutrientKey s.db n.id = false) :
    (nutrientStep o k s n).db.food_nutrients =
      s.db.food_nutrients ++ [mkFoodNutrientRow k n] ∧
    (n.foodNutrientDerivation = none →
      (mkFoodNutrientRow k n).derivation_code = "" ∧
      (mkFoodNutrientRow k n).derivation_desc = "") ∧
    (∀ d, n.foodNutrientDerivation = some d →
      (mkFoodNutrientRow k n).derivation_code = d.code ∧
      (mkFoodNutrientRow k n).derivation_desc = d.description) := by
  refine ⟨?_, ?_, ?_⟩
  · simp [nutrientStep, herr, hconf]
  · intro h; simp [mkFoodNutrientRow, h]
  · intro d h; simp [mkFoodNutrientRow, h]

/-- Witness for C5: inserting the derivation-free `appleNutrient` into
empty tables appends a row whose derivation columns are empty strings. -/
theorem c5_derivation_defaults_witness :
    (nutrientStep okOracle 1 initState appleNutrient).db.food_nutrients =
      emptyDB.food_nutrients ++ [mkFoodNutrientRow 1 appleNutrient] ∧
    (mkFoodNutrientRow 1 appleNutrient).derivation_code = "" ∧
    (mkFoodNutrientRow 1 appleNutrient).derivation_desc = "" := by
  obtain ⟨h1, h2, -⟩ :=
    c5_derivation_defaults okOracle 1 initState appleNutrient rfl rfl
  exact ⟨h1, (h2 rfl).1, (h2 rfl).2⟩

/-- C8: the optional numeric fields of a nutrient (`amount`, `dataPoints`,
`min`, `max`, `median`) decode to their zero value when omitted from the
JSON, and the persisted `food_nutrients` row then carries those zeros as
present values (the row's columns are total). -/
theorem c8_omitted_numerics_zero (o : InsertOracle) (k : Int) (s : LoopState)
    (ty : String) (idn : Int) (nut : Nutrient) (am : Option Rat)
    (dp : Option Int) (mi ma me : Option Rat) (deriv : Option Derivation)
    (herr : o.nutrientErr k (decodeFoodNutrient ty idn nut am dp mi ma me deriv) = false)
    (hconf : hasNutrientKey s.db idn = false) :
    (nutrientStep o k s
        (decodeFoodNutrient ty idn nut am dp mi ma me deriv)).db.food_nutrients =
      s.db.food_nutrients ++
        [mkFoodNutrientRow k (decodeFoodNutrient ty idn nut am dp mi ma me deriv)] ∧
    (am = none →
      (mkFoodNutrientRow k (decodeFoodNutrient ty idn nut am dp mi ma me deriv)).amount = 0) ∧
    (dp = none →
      (mkFoodNutrientRow k (decodeFoodNutrient ty idn nut am dp mi ma me deriv)).data_points = 0) ∧
    (mi = none →
      (mkFoodNutrientRow k (decodeFoodNutrient ty idn nut am dp mi ma me deriv)).min_val = 0) ∧
    (ma = none →
      (mkFoodNutrientRow k (decodeFoodNutrient ty idn nut am dp mi ma me deriv)).max_val = 0) ∧
    (me = none →
      (mkFoodNutrientRow k (decodeFoodNutrient ty idn nut am dp mi ma me deriv)).median = 0) := by
  refine ⟨?_, ?_, ?_, ?_, ?_, ?_⟩
  · have hid : (decodeFoodNutrient ty idn nut am dp mi ma me deriv).id = idn :=
      rfl
    simp [nutrientStep, herr, hid, hconf]
  · intro h; subst h; rfl
  · intro h; subst h; rfl
  · intro h; subst h; rfl
  · intro h; subst h; rfl
  · intro h; subst h; rfl

/-- Witness for C8: a nutrient decoded with all five numeric fields omitted
is inserted with amount, data points, min, max and median all zero. -/
theorem c8_omitted_numerics_zero_witness :
    (mkFoodNutrientRow 1 (decodeFoodNutrient "" 555 ⟨1008, "208", "Energy", 0,
      "kcal"⟩ none none none none none none)).amount = 0 ∧
    (mkFoodNutrientRow 1 (decodeFoodNutrient "" 555 ⟨1008, "208", "Energy", 0,
      "kcal"⟩ none none none none none none)).data_points = 0 ∧
    (mkFoodNutrientRow 1 (decodeFoodNutrient "" 555 ⟨1008, "208", "Energy", 0,
      "kcal"⟩ none none none none none none)).min_val = 0 ∧
    (mkFoodNutrientRow 1 (decodeFoodNutrient "" 555 ⟨1008, "208", "Energy", 0,
      "kcal"⟩ none none none none none none)).max_val = 0 ∧
    (mkFoodNutrientRow 1 (decodeFoodNutrient "" 555 ⟨1008, "208", "Energy", 0,
      "kcal"⟩ none none none none none none)).median = 0 := by
  obtain ⟨-, h1, h2, h3, h4, h5⟩ := c8_omitted_numerics_zero okOracle 1
    initState "" 555 ⟨1008, "208", "Energy", 0, "kcal"⟩ none none none none
    none none rfl rfl
  exact ⟨h1 rfl, h2 rfl, h3 rfl, h4 rfl, h5 rfl⟩

/-- Counterexample for C4: the claim says a FoodNutrient insert error is
logged, but the nutrient error branch of the code is empty — no log line.
Here every nutrient INSERT fails, the lone nutrient row is skipped, the run
still succeeds, and the emitted log list is empty. -/
theorem c4_counterexample :
    nutrientFailOracle.nutrientErr 1 appleNutrient = true ∧
    importData nutrientFailOracle (.ok appleRoot) emptyDB =
      .ok ⟨⟨[mkFoodRow appleFood], [], [], [], []⟩, ⟨1, 0, 0, 0⟩, []⟩ :=
  ⟨rfl, rfl⟩

/-- C4 amended: a FoodPortion insert error is logged and only that row is
skipped; a FoodNutrient insert error is silently ignored (no log) and only
that row is skipped; in both cases the loop continues with the remaining
sibling rows, and the enclosing run still commits (returns `.ok`). -/
theorem c4_amended_child_errors (o : InsertOracle) (k : Int) (p : FoodPortion)
    (n : FoodNutrient) (s : LoopState) (rest : List FoodPortion)
    (restN : List FoodNutrient) (root : Root) (db : DBState)
    (hp : o.portionErr k p = true) (hn : o.nutrientErr k n = true) :
    portionStep o k s p =
      { s with logs := s.logs ++ [.portionInsertError p.id k] } ∧
    nutrientStep o k s n = s ∧
    insertPortions o k (p :: rest) s =
      insertPortions o k rest (portionStep o k s p) ∧
    insertNutrients o k (n :: restN) s =
      insertNutrients o k restN (nutrientStep o k s n) ∧
    ∃ out, importData o (.ok root) db = .ok out := by
  refine ⟨by simp [portionStep, hp], by simp [nutrientStep, hn], rfl, rfl,
    ⟨_, rfl⟩⟩

/-- Witness for C4 amended: with every insert failing, a portion error
appends exactly one log event while a nutrient error changes nothing. -/
theorem c4_amended_child_errors_witness :
    portionStep failOracle 3 initState fullPortion =
      ⟨emptyDB, ⟨0, 0, 0, 0⟩, [.portionInsertError 77 3]⟩ ∧
    nutrientStep failOracle 3 initState fullNutrient = initState := by
  obtain ⟨h1, h2, -, -, -⟩ := c4_amended_child_errors failOracle 3 fullPortion
    fullNutrient initState [] [] appleRoot emptyDB rfl rfl
  exact ⟨by simpa [initState] using h1, h2⟩

/-- C1: after any successful import run over empty (post-DDL) tables, every
row of the four child tables has a `foods` row with the same `fdc_id`; and
when the Food insert for a record errors, the whole record is skipped: the
step only appends the error log line, inserting none of the record's
children. -/
theorem c1_children_have_parent_food (o : InsertOracle) (root : Root)
    (out : ImportOk) (h : importData o (.ok root) emptyDB = .ok out) :
    fdcInvariant out.db ∧
    ∀ (s : LoopState) (f : FoundationFood), o.foodErr f = true →
      processFood o s f =
        { s with logs := s.logs ++ [.foodInsertError f.fdcId] } := by
  constructor
  · simp only [importData] at h
    injection h with h'
    subst h'
    exact importList_invariant o root.FoundationFoods ⟨emptyDB, ⟨0, 0, 0, 0⟩, []⟩
      (by simp [fdcInvariant, emptyDB])
  · intro s f hf
    exact processFood_err o s f hf

/-- Witness for C1: the full-featured one-record import run leaves tables
satisfying the referential-integrity invariant. -/
theorem c1_children_have_parent_food_witness : fdcInvariant fullOut1.db :=
  (c1_children_have_parent_food okOracle fullRoot fullOut1 rfl).1

/-- C9: when a record's fdcId is already present in `foods`, its insert is
a conflict no-op rather than an error, so the record is NOT skipped: the
step leaves `foods` unchanged, still runs the whole child pipeline against
the existing fdc_id, and still increments totalFoods — so totalFoods counts
processed records, not distinct foods rows, as the duplicate-fdcId document
`appleDupRoot` shows concretely (one foods row, totalFoods 2, and the second
record's nutrient row present). -/
theorem c9_duplicate_fdcid_not_skipped (o : InsertOracle) (s : LoopState)
    (f : FoundationFood) (herr : o.foodErr f = false)
    (hkey : hasFoodKey s.db f.fdcId = true) :
    processFood o s f = processChildren o f s.db s ∧
    (processFood o s f).db.foods = s.db.foods ∧
    (processFood o s f).totals.totalFoods = s.totals.totalFoods + 1 ∧
    importData okOracle (.ok appleDupRoot) emptyDB =
      .ok ⟨⟨[mkFoodRow appleFood], [], [], [],
        [⟨100, 1, 1008, "Energy", "208", "kcal", 52, 0, 0, 0, 0, "", ""⟩,
          ⟨101, 1, 1003, "Protein", "203", "g", 3, 0, 0, 0, 0, "", ""⟩]⟩,
        ⟨2, 2, 0, 0⟩, []⟩ := by
  have heq : processFood o s f = processChildren o f s.db s := by
    rw [processFood_ok o s f herr, if_pos hkey]
  obtain ⟨ti, tp, ta, tn, e1, e2, e3, e4, e5, e6, e7, e8, e9, e10⟩ :=
    processChildren_components o f s.db s
  exact ⟨heq, by rw [heq]; exact e1, by rw [heq]; exact e10, rfl⟩

/-- Witness for C9: processing the duplicate-fdcId record `appleDupFood`
from the post-`appleFood` state adds no foods row yet still counts. -/
theorem c9_duplicate_fdcid_not_skipped_witness :
    (processFood okOracle dupState appleDupFood).db.foods =
      dupState.db.foods ∧
    (processFood okOracle dupState appleDupFood).totals.totalFoods =
      dupState.totals.totalFoods + 1 := by
  obtain ⟨-, h2, h3, -⟩ :=
    c9_duplicate_fdcid_not_skipped okOracle dupState appleDupFood rfl rfl
  exact ⟨h2, h3⟩

/-- Counterexample for C7's general sentence: a record with zero portions,
zero attributes and zero nutrients but one InputFood entry yields one row
in the `input_foods` child table, not zero child rows. -/
theorem c7_counterexample :
    inputOnlyFood.foodPortions = [] ∧ inputOnlyFood.foodAttributes = [] ∧
    inputOnlyFood.foodNutrients = [] ∧
    importData okOracle (.ok ⟨[inputOnlyFood]⟩) emptyDB =
      .ok ⟨⟨[mkFoodRow inputOnlyFood],
        [⟨2, "Pear, raw", 7, "source_tbl", "2019"⟩], [], [], []⟩,
        ⟨1, 0, 0, 0⟩, []⟩ ∧
    ([⟨2, "Pear, raw", 7, "source_tbl", "2019"⟩] : List InputFoodRow).length ≠ 0 :=
  ⟨rfl, rfl, rfl, rfl, by decide⟩

/-- C7 amended: the concrete Apple scenario imports to exactly one foods
row (fdc_id 1) and one food_nutrients row (id 100, nutrient 1008, amount
52, empty derivation code) with the other three tables empty; and a record
with zero portions, zero attributes, zero nutrients AND zero input foods
yields exactly one foods row and zero rows in all four child tables. -/
theorem c7_single_food_scenario (o : InsertOracle) (f : FoundationFood)
    (he : o.foodErr f = false) (h1 : f.inputFoods = [])
    (h2 : f.foodPortions = []) (h3 : f.foodAttributes = [])
    (h4 : f.foodNutrients = []) :
    importData o (.ok ⟨[f]⟩) emptyDB =
      .ok ⟨⟨[mkFoodRow f], [], [], [], []⟩, ⟨1, 0, 0, 0⟩, []⟩ ∧
    importData okOracle (.ok appleRoot) emptyDB =
      .ok ⟨⟨[⟨1, "Apple", "Foundation", "FinalFood", "2020-01-01"⟩], [], [], [],
        [⟨100, 1, 1008, "Energy", "208", "kcal", 52, 0, 0, 0, 0, "", ""⟩]⟩,
        ⟨1, 1, 0, 0⟩, []⟩ := by
  constructor
  · simp only [importData, importList]
    rw [processFood_ok o ⟨emptyDB, ⟨0, 0, 0, 0⟩, []⟩ f he]
    simp [processChildren, h1, h2, h3, h4, insertInputFoods, insertPortions,
      insertAttributes, insertNutrients, hasFoodKey, emptyDB]
  · rfl

/-- Witness for C7 amended: importing the childless record `bareFood`
yields one foods row and four empty child tables. -/
theorem c7_single_food_scenario_witness :
    importData okOracle (.ok ⟨[bareFood]⟩) emptyDB =
      .ok ⟨⟨[mkFoodRow bareFood], [], [], [], []⟩, ⟨1, 0, 0, 0⟩, []⟩ :=
  (c7_single_food_scenario okOracle bareFood rfl rfl rfl rfl rfl).1

/-- C2: re-running the load step alone over the same document, without a
schema reset and with no external insert failures, leaves the row counts of
`foods`, `food_portions` and `food_nutrients` unchanged (every second insert
hits a primary-key conflict and is skipped), while `input_foods` and
`food_attributes` exactly double (their inserts have no conflict
handling). -/
theorem c2_rerun_without_reset (root : Root) (out1 out2 : ImportOk)
    (h1 : importData okOracle (.ok root) emptyDB = .ok out1)
    (h2 : importData okOracle (.ok root) out1.db = .ok out2) :
    out2.db.foods.length = out1.db.foods.length ∧
    out2.db.food_portions.length = out1.db.food_portions.length ∧
    out2.db.food_nutrients.length = out1.db.food_nutrients.length ∧
    out2.db.input_foods.length = 2 * out1.db.input_foods.length ∧
    out2.db.food_attributes.length = 2 * out1.db.food_attributes.length := by
  simp only [importData] at h1 h2
  injection h1 with e1
  injection h2 with e2
  have hdb1 : out1.db =
      (importList okOracle root.FoundationFoods ⟨emptyDB, ⟨0, 0, 0, 0⟩, []⟩).db := by
    rw [← e1]
  rw [hdb1] at e2
  have hdb2 : out2.db =
      (importList okOracle root.FoundationFoods
        ⟨(importList okOracle root.FoundationFoods
            ⟨emptyDB, ⟨0, 0, 0, 0⟩, []⟩).db, ⟨0, 0, 0, 0⟩, []⟩).db := by
    rw [← e2]
  have hmem := importList_mem root.FoundationFoods ⟨emptyDB, ⟨0, 0, 0, 0⟩, []⟩
  have happ1 := importList_applen root.FoundationFoods
    ⟨emptyDB, ⟨0, 0, 0, 0⟩, []⟩
  have happ2 := importList_applen root.FoundationFoods
    ⟨(importList okOracle root.FoundationFoods
        ⟨emptyDB, ⟨0, 0, 0, 0⟩, []⟩).db, ⟨0, 0, 0, 0⟩, []⟩
  have hfroz := importList_frozen root.FoundationFoods
    ⟨(importList okOracle root.FoundationFoods
        ⟨emptyDB, ⟨0, 0, 0, 0⟩, []⟩).db, ⟨0, 0, 0, 0⟩, []⟩
    (fun f hf => (hmem f hf).1)
    (fun f hf => (hmem f hf).2.1)
    (fun f hf => (hmem f hf).2.2)
  rw [hdb1, hdb2]
  refine ⟨congrArg List.length hfroz.1, congrArg List.length hfroz.2.1,
    congrArg List.length hfroz.2.2, ?_, ?_⟩
  · have z1 : (importList okOracle root.FoundationFoods
        ⟨emptyDB, ⟨0, 0, 0, 0⟩, []⟩).db.input_foods.length =
        sumInputs root.FoundationFoods := by
      simpa [emptyDB] using happ1.1
    rw [happ2.1]
    rw [z1]
    omega
  · have z2 : (importList okOracle root.FoundationFoods
        ⟨emptyDB, ⟨0, 0, 0, 0⟩, []⟩).db.food_attributes.length =
        sumAttrs root.FoundationFoods := by
      simpa [emptyDB] using happ1.2
    rw [happ2.2]
    rw [z2]
    omega

/-- Witness for C2: running the `fullRoot` load twice doubles the
input-food and attribute rows and leaves the other three tables' counts
unchanged. -/
theorem c2_rerun_without_reset_witness :
    fullOut2.db.foods.length = fullOut1.db.foods.length ∧
    fullOut2.db.food_portions.length = fullOut1.db.food_portions.length ∧
    fullOut2.db.food_nutrients.length = fullOut1.db.food_nutrients.length ∧
    fullOut2.db.input_foods.length = 2 * fullOut1.db.input_foods.length ∧
    fullOut2.db.food_attributes.length = 2 * fullOut1.db.food_attributes.length :=
  c2_rerun_without_reset fullRoot fullOut1 fullOut2 rfl rfl

/-- C6: the totals are incremented as the code does it — an erroring
portion, nutrient or food insert is not counted, a non-erroring one is; an
attribute insert is counted even when it errors (over-count, the tables stay
unchanged); and input-food successes and failures are never counted or
logged at all: making every input-food insert fail changes neither the
four reported totals nor the logs of a whole run. -/
theorem c6_totals_counting (o : InsertOracle) (k : Int) (s : LoopState)
    (a : FoodAttribute) (p p' : FoodPortion) (n n' : FoodNutrient)
    (f f' : FoundationFood) (root : Root) (db : DBState)
    (ha : o.attrErr k a = true) (hp : o.portionErr k p = true)
    (hn : o.nutrientErr k n = true) (hf : o.foodErr f = true)
    (hp' : o.portionErr k p' = false) (hn' : o.nutrientErr k n' = false)
    (hf' : o.foodErr f' = false) :
    ((attrStep o k s a).db = s.db ∧
      (attrStep o k s a).totals.totalAttrs = s.totals.totalAttrs + 1) ∧
    (portionStep o k s p).totals = s.totals ∧
    (nutrientStep o k s n).totals = s.totals ∧
    (processFood o s f).totals = s.totals ∧
    (portionStep o k s p').totals.totalPortions =
      s.totals.totalPortions + 1 ∧
    (nutrientStep o k s n').totals.totalNutrients =
      s.totals.totalNutrients + 1 ∧
    (processFood o s f').totals.totalFoods = s.totals.totalFoods + 1 ∧
    (importList (disableInputs o) root.FoundationFoods
        ⟨db, ⟨0, 0, 0, 0⟩, []⟩).totals =
      (importList o root.FoundationFoods ⟨db, ⟨0, 0, 0, 0⟩, []⟩).totals ∧
    (importList (disableInputs o) root.FoundationFoods
        ⟨db, ⟨0, 0, 0, 0⟩, []⟩).logs =
      (importList o root.FoundationFoods ⟨db, ⟨0, 0, 0, 0⟩, []⟩).logs := by
  have hsim := importList_sim (disableInputs o) o rfl rfl rfl rfl
    root.FoundationFoods ⟨db, ⟨0, 0, 0, 0⟩, []⟩ ⟨db, ⟨0, 0, 0, 0⟩, []⟩
    ⟨⟨rfl, rfl, rfl, rfl⟩, rfl, rfl⟩
  refine ⟨⟨by simp [attrStep, ha], by simp [attrStep, ha]⟩,
    by simp [portionStep, hp], by simp [nutrientStep, hn],
    by rw [processFood_err o s f hf],
    ?_, ?_, ?_, hsim.2.1, hsim.2.2⟩
  · by_cases hc : hasPortionKey s.db p'.id = true <;>
      simp [portionStep, hp', hc]
  · by_cases hc : hasNutrientKey s.db n'.id = true <;>
      simp [nutrientStep, hn', hc]
  · rw [processFood_ok o s f' hf']
    obtain ⟨ti, tp, ta, tn, e1, e2, e3, e4, e5, e6, e7, e8, e9, e10⟩ :=
      processChildren_components o f'
        (if hasFoodKey s.db f'.fdcId then s.db
          else { s.db with foods := s.db.foods ++ [mkFoodRow f'] }) s
    exact e10

/-- Witness for C6: with `mixedOracle` from the empty state, a failing
attribute insert still counts, failing portion/nutrient/food inserts do
not, and successful ones do. -/
theorem c6_totals_counting_witness :
    (attrStep mixedOracle 3 initState fullAttr).totals.totalAttrs = 1 ∧
    (portionStep mixedOracle 3 initState fullPortion).totals = ⟨0, 0, 0, 0⟩ ∧
    (nutrientStep mixedOracle 3 initState fullNutrient).totals = ⟨0, 0, 0, 0⟩ ∧
    (processFood mixedOracle initState appleFood).totals = ⟨0, 0, 0, 0⟩ ∧
    (processFood mixedOracle initState bareFood).totals.totalFoods = 1 := by
  obtain ⟨⟨-, hA⟩, hP, hN, hF, -, -, hF', -, -⟩ := c6_totals_counting
    mixedOracle 3 initState fullAttr fullPortion
    ⟨78, 1, 1, "piece", 118, 0, "", "1 medium", "one medium banana"⟩
    fullNutrient appleNutrient appleFood bareFood appleRoot emptyDB
    rfl rfl rfl rfl rfl rfl rfl
  exact ⟨hA, hP, hN, hF, hF'⟩

end USDA
